import Mathlib

/-!
Shallow embedding of the telemetry computation of `src/f1_data.py`
(function `get_race_telemetry` and its helpers), over exact rationals.

Machine floats of the source are idealised as `ℚ`; pandas dataframes are
records of channel lists; a raised-and-uncaught Python exception is an
`Except.error`; a `try/except: continue` is a recovered branch.  Dicts are
association lists with Python's insertion-order update semantics
(`dictInsert`).  `np.argsort` / `sorted` are modelled as stable sorts.
-/

namespace F1

/-- `FPS = 25` (src/f1_data.py line 17). -/
def FPS : ℚ := 25

/-- `DT = 1 / FPS` (src/f1_data.py line 18). -/
def DT : ℚ := 1 / FPS

/-- Executable floor of a rational (`⌊q⌋`, see `ratFloor_eq`). -/
def ratFloor (q : ℚ) : ℤ := q.num / q.den

/-- Executable ceiling of a rational (`⌈q⌉`, see `ratCeil_eq`). -/
def ratCeil (q : ℚ) : ℤ := -ratFloor (-q)

/-- Python `round` to nearest integer, ties to even (banker's rounding),
used for `int(round(...))` on lap, gear and DRS values. -/
def pyRound (q : ℚ) : ℤ :=
  let f := ratFloor q
  let r := q - f
  if r < 1 / 2 then f
  else if 1 / 2 < r then f + 1
  else if f % 2 = 0 then f else f + 1

/-- Python `round(x, 4)` used on the relative-distance field. -/
def pyRound4 (q : ℚ) : ℚ := (pyRound (q * 10000) : ℚ) / 10000

/-- `ndarray.min()` of a (nonempty) array. -/
def npMin (l : List ℚ) : ℚ := l.foldl min (l.headD 0)

/-- `ndarray.max()` of a (nonempty) array. -/
def npMax (l : List ℚ) : ℚ := l.foldl max (l.headD 0)

/-- Maximum of a (nonempty) list of integers, for `laps.LapNumber.max()`. -/
def intMax (l : List ℤ) : ℤ := l.foldl max (l.headD 0)

/-- `np.zeros_like(t)`: an all-zero array with the shape of `t`. -/
def zerosLike (l : List ℚ) : List ℚ := l.map (fun _ => 0)

/-- `np.arange(start, stop, step)` for a positive rational step:
the values `start + i*step` for `0 ≤ i` while `start + i*step < stop`. -/
def arange (start stop step : ℚ) : List ℚ :=
  (List.range (ratCeil ((stop - start) / step)).toNat).map (fun i : ℕ => start + (i : ℚ) * step)

/-- Stable insert of index `i` into an index list ascending by `val`. -/
def insertIdxBy (val : ℕ → ℚ) (i : ℕ) : List ℕ → List ℕ
  | [] => [i]
  | j :: js => if val i ≤ val j then i :: j :: js else j :: insertIdxBy val i js

/-- `np.argsort` on a 1-d array, modelled as a stable ascending argsort. -/
def argsort (l : List ℚ) : List ℕ :=
  (List.range l.length).foldr (insertIdxBy (fun i => l.getD i 0)) []

/-- Fancy indexing `arr[order]`. -/
def applyOrder (order : List ℕ) (l : List ℚ) : List ℚ :=
  order.map (fun i => l.getD i 0)

/-- One linear-interpolation pass over `(x, f)` sample points
(`np.interp` with its default clamping behaviour at both ends). -/
def interpSeg : List (ℚ × ℚ) → ℚ → ℚ
  | [], _ => 0
  | [(_, f0)], _ => f0
  | (x0, f0) :: (x1, f1) :: rest, x =>
    if x ≤ x0 then f0
    else if x ≤ x1 then f0 + (f1 - f0) * (x - x0) / (x1 - x0)
    else interpSeg ((x1, f1) :: rest) x

/-- `np.interp(x, xp, fp)`. -/
def np_interp (x : ℚ) (xp fp : List ℚ) : ℚ := interpSeg (xp.zip fp) x

/-- Python dict assignment `m[k] = v`: replaces the value in place when the
key exists (keeping its position), appends otherwise. -/
def dictInsert {α : Type} (l : List (String × α)) (k : String) (v : α) :
    List (String × α) :=
  match l with
  | [] => [(k, v)]
  | (k0, v0) :: rest =>
    if k0 = k then (k, v) :: rest else (k0, v0) :: dictInsert rest k v

/-- Building a dict by successive assignments. -/
def dictFold {α : Type} (init : List (String × α)) (kvs : List (String × α)) :
    List (String × α) :=
  kvs.foldl (fun m kv => dictInsert m kv.1 kv.2) init

/-! ## Data model of the provider input -/

/-- One lap's telemetry dataframe (`lap.get_telemetry()` result): required
channels `SessionTime` (as seconds), `X`, `Y`, `Distance`; optional channels
`RelativeDistance`, `Speed`, `SpeedKph`, `nGear`, `DRS`. -/
structure LapTel where
  sessionTime : List ℚ
  x : List ℚ
  y : List ℚ
  distance : List ℚ
  relativeDistance : Option (List ℚ)
  speed : Option (List ℚ)
  speedKph : Option (List ℚ)
  nGear : Option (List ℚ)
  drs : Option (List ℚ)
deriving DecidableEq

/-- One lap row: lap number, tyre compound, and its telemetry
(`none` models `lap.get_telemetry()` raising). -/
structure Lap where
  lapNumber : ℤ
  compound : String
  telemetry : Option LapTel
deriving DecidableEq

/-- One participating driver: its number, its abbreviation (`none` models
`session.get_driver` raising) and its laps (`none` models
`session.laps.pick_drivers` raising; `some []` an empty lap frame). -/
structure Driver where
  number : String
  abbreviation : Option String
  laps : Option (List Lap)
deriving DecidableEq

/-- The already-loaded session as consumed by `get_race_telemetry`. -/
structure Session where
  drivers : List Driver
  colorMapping : List (String × String)
  trackStatus : Option (List (ℚ × String))
deriving DecidableEq

/-- Modelled from the spec: `get_tyre_compound_int` lives in
`src/lib/tyres.py`, which is not among the provided sources; the spec says
only that the tyre compound is a "categorical rubber type in use, encoded as
an integer".  We fix one total encoding; no claim depends on its values. -/
def get_tyre_compound_int (c : String) : ℤ :=
  if c = "SOFT" then 1
  else if c = "MEDIUM" then 2
  else if c = "HARD" then 3
  else if c = "INTERMEDIATE" then 4
  else if c = "WET" then 5
  else 0

/-- `driver_codes` lookup: the abbreviation when `get_driver` succeeded,
otherwise `str(num)` (src/f1_data.py lines 89-94, 103). -/
def driver_code (d : Driver) : String := d.abbreviation.getD d.number

/-! ## Lap Assembler -/

/-- The per-driver `parts` accumulator of per-lap arrays
(src/f1_data.py lines 117-120). -/
structure Parts where
  t : List (List ℚ)
  x : List (List ℚ)
  y : List (List ℚ)
  dist : List (List ℚ)
  rel_dist : List (List ℚ)
  lap : List (List ℚ)
  tyre : List (List ℚ)
  speed : List (List ℚ)
  gear : List (List ℚ)
  drs : List (List ℚ)
deriving DecidableEq

/-- The empty `parts` accumulator. -/
def partsEmpty : Parts := ⟨[], [], [], [], [], [], [], [], [], []⟩

/-- The message of the uncaught exception raised by
`lap_tel.get("Speed", lap_tel.get("SpeedKph", None)).to_numpy()` when both
speed channels are absent (src/f1_data.py line 140). -/
def speedErrMsg : String :=
  "AttributeError: NoneType object has no attribute to_numpy"

/-- Line 140: `Speed` falls back to `SpeedKph`; if both are absent the
`None.to_numpy()` call raises, uncaught. -/
def resolveSpeed (lt : LapTel) : Except String (List ℚ) :=
  match lt.speed with
  | some s => .ok s
  | none =>
    match lt.speedKph with
    | some s => .ok s
    | none => .error speedErrMsg

/-- The message of the uncaught exception raised by
`lap_tel.get("nGear", np.zeros_like(t_lap)).to_numpy()` (and likewise for
`DRS`) when the channel is absent: the `.get` default is a plain
`numpy.ndarray`, which has no `to_numpy` method (src/f1_data.py
lines 141-142). -/
def ndarrayErrMsg : String :=
  "AttributeError: numpy.ndarray object has no attribute to_numpy"

/-- Lines 141-142: `nGear` and `DRS` are meant to fall back to
`np.zeros_like(t_lap)`, but the fallback is unreachable: when the channel
is absent, `.to_numpy()` is called on the ndarray default and raises an
uncaught `AttributeError`. -/
def resolveChannel (c : Option (List ℚ)) : Except String (List ℚ) :=
  match c with
  | some v => .ok v
  | none => .error ndarrayErrMsg

/-- One iteration of the per-lap loop (src/f1_data.py lines 123-158), over
the state `(total_dist_so_far, parts)`.  A lap whose telemetry retrieval
raised, or whose telemetry is empty, is skipped; the channel resolutions of
lines 140-142 run in program order (speed, then gear, then DRS) and each
can raise an uncaught `AttributeError`. -/
def processLap (acc : ℚ × Parts) (lap : Lap) : Except String (ℚ × Parts) :=
  match lap.telemetry with
  | none => .ok acc
  | some lt =>
    let lap_number : ℚ := (lap.lapNumber : ℚ)
    let tyre_compound_int : ℚ := (get_tyre_compound_int lap.compound : ℚ)
    if lt.sessionTime = [] then .ok acc
    else
      match resolveSpeed lt with
      | .error e => .error e
      | .ok speed_kph_lap =>
       match resolveChannel lt.nGear with
       | .error e => .error e
       | .ok gear_lap =>
        match resolveChannel lt.drs with
        | .error e => .error e
        | .ok drs_lap =>
        let t_lap := lt.sessionTime
        let d_lap := lt.distance
        let rd_lap := lt.relativeDistance.getD lt.distance
        let race_d_lap := d_lap.map (fun v => acc.1 + v)
        let parts := acc.2
        let parts' : Parts :=
          { t := parts.t ++ [t_lap]
            x := parts.x ++ [lt.x]
            y := parts.y ++ [lt.y]
            dist := parts.dist ++ [race_d_lap]
            rel_dist := parts.rel_dist ++ [rd_lap]
            lap := parts.lap ++ [t_lap.map (fun _ => lap_number)]
            tyre := parts.tyre ++ [t_lap.map (fun _ => tyre_compound_int)]
            speed := parts.speed ++ [speed_kph_lap]
            gear := parts.gear ++ [gear_lap]
            drs := parts.drs ++ [drs_lap] }
        .ok (race_d_lap.getLastD acc.1, parts')

/-- One driver's full-session, time-sorted trace (`driver_data[code]`). -/
structure DriverTrace where
  t : List ℚ
  x : List ℚ
  y : List ℚ
  dist : List ℚ
  rel_dist : List ℚ
  lap : List ℚ
  tyre : List ℚ
  speed : List ℚ
  gear : List ℚ
  drs : List ℚ
deriving DecidableEq

/-- Per-driver result: the driver's contribution to `max_lap_number`
(updated as soon as the lap frame is nonempty, line 115) and, when at least
one lap was usable, its concatenated sorted trace keyed by code. -/
structure DriverSummary where
  lapMax : Option ℤ
  entry : Option (String × DriverTrace)
deriving DecidableEq

/-- The per-driver body of the extraction loop
(src/f1_data.py lines 102-202, up to the trace construction). -/
def processDriver (d : Driver) : Except String DriverSummary :=
  match d.laps with
  | none => .ok ⟨none, none⟩
  | some laps =>
    if laps = [] then .ok ⟨none, none⟩
    else
      match laps.foldlM processLap (0, partsEmpty) with
      | .error e => .error e
      | .ok res =>
        let parts := res.2
        let lapMax := intMax (laps.map (fun l => l.lapNumber))
        if parts.t = [] then .ok ⟨some lapMax, none⟩
        else
          let t_all := parts.t.flatten
          let order := argsort t_all
          let tr : DriverTrace :=
            { t := applyOrder order t_all
              x := applyOrder order parts.x.flatten
              y := applyOrder order parts.y.flatten
              dist := applyOrder order parts.dist.flatten
              rel_dist := applyOrder order parts.rel_dist.flatten
              lap := applyOrder order parts.lap.flatten
              tyre := applyOrder order parts.tyre.flatten
              speed := applyOrder order parts.speed.flatten
              gear := applyOrder order parts.gear.flatten
              drs := applyOrder order parts.drs.flatten }
          .ok ⟨some lapMax, some (driver_code d, tr)⟩

/-- The running session-level state of the extraction loop:
`driver_data`, `global_t_min`, `global_t_max`, `max_lap_number`. -/
structure GatherAcc where
  driver_data : List (String × DriverTrace)
  gmin : Option ℚ
  gmax : Option ℚ
  max_lap : ℤ
deriving DecidableEq

/-- Folding one driver into the session-level state
(src/f1_data.py lines 102-202). -/
def gatherStep (acc : GatherAcc) (d : Driver) : Except String GatherAcc :=
  match processDriver d with
  | .error e => .error e
  | .ok s =>
    let acc1 : GatherAcc :=
      { acc with
        max_lap := match s.lapMax with
          | none => acc.max_lap
          | some m => max acc.max_lap m }
    match s.entry with
    | none => .ok acc1
    | some (code, tr) =>
      let t_min := npMin tr.t
      let t_max := npMax tr.t
      .ok { acc1 with
        driver_data := dictInsert acc1.driver_data code tr
        gmin := some (match acc1.gmin with | none => t_min | some g => min g t_min)
        gmax := some (match acc1.gmax with | none => t_max | some g => max g t_max) }

/-- The whole per-driver extraction loop over the session. -/
def gather (s : Session) : Except String GatherAcc :=
  s.drivers.foldlM gatherStep ⟨[], none, none, 0⟩

/-! ## Timeline Builder, Resampler, Frame Synthesizer -/

/-- Step 2 (line 208):
`timeline = np.arange(global_t_min, global_t_max + DT, DT) - global_t_min`. -/
def mkTimeline (gmin gmax : ℚ) : List ℚ :=
  (arange gmin (gmax + DT) DT).map (fun t => t - gmin)

/-- The inner `_safe_interp` helper (line 218-219) applied to an
already-sorted time base: interpolate onto every timeline instant. -/
def safe_interp (timeline t_sorted sorted_arr : List ℚ) : List ℚ :=
  timeline.map (fun τ => np_interp τ t_sorted sorted_arr)

/-- Step 3 (lines 212-232): shift a driver's trace by `-global_t_min`,
re-sort, and linearly interpolate every channel onto the timeline. -/
def resampleDriver (timeline : List ℚ) (gmin : ℚ) (data : DriverTrace) :
    DriverTrace :=
  let t := data.t.map (fun v => v - gmin)
  let order := argsort t
  let t_sorted := applyOrder order t
  { t := timeline
    x := safe_interp timeline t_sorted (applyOrder order data.x)
    y := safe_interp timeline t_sorted (applyOrder order data.y)
    dist := safe_interp timeline t_sorted (applyOrder order data.dist)
    rel_dist := safe_interp timeline t_sorted (applyOrder order data.rel_dist)
    lap := safe_interp timeline t_sorted (applyOrder order data.lap)
    tyre := safe_interp timeline t_sorted (applyOrder order data.tyre)
    speed := safe_interp timeline t_sorted (applyOrder order data.speed)
    gear := safe_interp timeline t_sorted (applyOrder order data.gear)
    drs := safe_interp timeline t_sorted (applyOrder order data.drs) }

/-- One row of a frame's `snapshot` (lines 279-282). -/
structure FrameCar where
  code : String
  x : ℚ
  y : ℚ
  dist : ℚ
  lap : ℤ
  rel_dist : ℚ
  tyre : ℚ
  speed : ℚ
  gear : ℤ
  drs : ℤ
deriving DecidableEq

/-- Gathering one driver's resampled sample at timeline index `i`
(lines 261-271); lap, gear and DRS are `int(round(...))`-ed here. -/
def mkFrameCar (code : String) (d : DriverTrace) (i : ℕ) : FrameCar :=
  { code := code
    x := d.x.getD i 0
    y := d.y.getD i 0
    dist := d.dist.getD i 0
    lap := pyRound (d.lap.getD i 0)
    rel_dist := d.rel_dist.getD i 0
    tyre := d.tyre.getD i 0
    speed := d.speed.getD i 0
    gear := pyRound (d.gear.getD i 0)
    drs := pyRound (d.drs.getD i 0) }

/-- Stable insertion for a descending-by-`dist` sort: among equal distances
the earlier element stays first, as Python's stable `sorted` does. -/
def insertCarDesc (c : FrameCar) : List FrameCar → List FrameCar
  | [] => [c]
  | c0 :: cs => if c0.dist ≤ c.dist then c :: c0 :: cs else c0 :: insertCarDesc c cs

/-- `sorted(..., key=lambda r: r["dist"], reverse=True)` (lines 279-282). -/
def sortCarsDesc (l : List FrameCar) : List FrameCar := l.foldr insertCarDesc []

/-- One driver's entry in a frame's `frame_data` dict (lines 288-300). -/
structure FrameEntry where
  x : ℚ
  y : ℚ
  dist : ℚ
  lap : ℤ
  rel_dist : ℚ
  tyre : ℚ
  position : ℕ
  speed : ℚ
  gear : ℤ
  drs : ℤ
deriving DecidableEq

/-- Building a driver's frame entry from its snapshot row and its
1-based rank (lines 289-300). -/
def mkFrameEntry (car : FrameCar) (pos : ℕ) : FrameEntry :=
  { x := car.x
    y := car.y
    dist := car.dist
    lap := car.lap
    rel_dist := pyRound4 car.rel_dist
    tyre := car.tyre
    position := pos
    speed := car.speed
    gear := car.gear
    drs := car.drs }

/-- One emitted frame (line 302). -/
structure Frame where
  t : ℚ
  lap : ℤ
  drivers : List (String × FrameEntry)
deriving DecidableEq

/-- The body of the frame loop at one timeline index (lines 257-302):
`none` when no driver contributed a sample at this tick. -/
def frameAt (resampled : List (String × DriverTrace)) (i : ℕ) (t : ℚ) :
    Option Frame :=
  let frame_drivers := resampled.map (fun p => mkFrameCar p.1 p.2 i)
  match sortCarsDesc frame_drivers with
  | [] => none
  | leader :: rest =>
    let snapshot := leader :: rest
    let frame_data :=
      dictFold [] ((snapshot.enum).map (fun p => (p.2.code, mkFrameEntry p.2 (p.1 + 1))))
    some ⟨t, leader.lap, frame_data⟩

/-- Step 5 (lines 255-302): one frame per timeline tick that has drivers. -/
def buildFrames (resampled : List (String × DriverTrace)) (timeline : List ℚ) :
    List Frame :=
  (timeline.enum).filterMap (fun p => frameAt resampled p.1 p.2)

/-! ## Status Interval Builder -/

/-- One formatted track-status interval (lines 247-251). -/
structure StatusInterval where
  status : String
  start_time : ℚ
  end_time : Option ℚ
deriving DecidableEq

/-- `formatted_track_statuses[-1]["end_time"] = start_time` (line 246). -/
def setLastEnd (e : ℚ) : List StatusInterval → List StatusInterval
  | [] => []
  | [i] => [{ i with end_time := some e }]
  | i :: rest => i :: setLastEnd e rest

/-- Appending one status-change event (lines 241-251). -/
def addStatus (gmin : ℚ) (acc : List StatusInterval) (ev : ℚ × String) :
    List StatusInterval :=
  let start_time := ev.1 - gmin
  setLastEnd start_time acc ++ [⟨ev.2, start_time, none⟩]

/-- Step 4 (lines 236-253): an absent status stream yields an empty list. -/
def buildStatuses (gmin : ℚ) : Option (List (ℚ × String)) → List StatusInterval
  | none => []
  | some evs => evs.foldl (addStatus gmin) []

/-! ## Payload Assembler and colors -/

/-- One hex digit's value. -/
def hexDigitVal (c : Char) : Option ℕ :=
  if '0' ≤ c ∧ c ≤ '9' then some (c.toNat - '0'.toNat)
  else if 'a' ≤ c ∧ c ≤ 'f' then some (c.toNat - 'a'.toNat + 10)
  else if 'A' ≤ c ∧ c ≤ 'F' then some (c.toNat - 'A'.toNat + 10)
  else none

/-- `int(s, 16)` on a digit string: `none` on an empty or malformed slice
(Python raises `ValueError` there). -/
def parseHexNat (cs : List Char) : Option ℕ :=
  match cs with
  | [] => none
  | _ =>
    cs.foldl (fun acc c => acc.bind (fun n => (hexDigitVal c).map (fun v => 16 * n + v)))
      (some 0)

/-- `hex_color.lstrip('#')` then `int(hex[i:i+2], 16) for i in (0, 2, 4)`
(src/f1_data.py lines 33-34). -/
def parseHexColor (s : String) : Option (ℕ × ℕ × ℕ) :=
  let cs := s.toList.dropWhile (fun c => c = '#')
  match parseHexNat (cs.take 2), parseHexNat ((cs.drop 2).take 2),
      parseHexNat ((cs.drop 4).take 2) with
  | some r, some g, some b => some (r, g, b)
  | _, _, _ => none

/-- `get_driver_colors` (lines 27-36): converts the provider's hex color
mapping to RGB triples; a malformed color raises, uncaught. -/
def get_driver_colors (mapping : List (String × String)) :
    Except String (List (String × (ℕ × ℕ × ℕ))) :=
  mapping.mapM (fun p =>
    match parseHexColor p.2 with
    | some rgb => Except.ok (p.1, rgb)
    | none => Except.error "ValueError: invalid literal for int with base 16")

/-- The returned telemetry payload (lines 307-312). -/
structure Payload where
  frames : List Frame
  driver_colors : List (String × (ℕ × ℕ × ℕ))
  track_statuses : List StatusInterval
  total_laps : ℤ
deriving DecidableEq

/-- The fatal message of line 205. -/
def dataUnavailableMsg : String :=
  "ValueError: No telemetry data available for this session"

/-- The whole computation of `get_race_telemetry` past the cache check
(src/f1_data.py lines 86-321). -/
def get_race_telemetry_core (s : Session) : Except String Payload :=
  match gather s with
  | .error e => .error e
  | .ok acc =>
    match acc.gmin, acc.gmax with
    | some gmin, some gmax =>
      if acc.driver_data = [] then .error dataUnavailableMsg
      else
        let timeline := mkTimeline gmin gmax
        let resampled :=
          acc.driver_data.map (fun p => (p.1, resampleDriver timeline gmin p.2))
        let statuses := buildStatuses gmin s.trackStatus
        let frames := buildFrames resampled timeline
        match get_driver_colors s.colorMapping with
        | .error e => .error e
        | .ok colors => .ok ⟨frames, colors, statuses, acc.max_lap⟩
    | _, _ => .error dataUnavailableMsg

/-- The timeline stage of `get_race_telemetry_core`, exposed for
specification purposes (it recomputes exactly what the core computes at
line 208). -/
def timelineOf (s : Session) : Option (List ℚ) :=
  match gather s with
  | .error _ => none
  | .ok acc =>
    match acc.gmin, acc.gmax with
    | some gmin, some gmax => some (mkTimeline gmin gmax)
    | _, _ => none

/-- The resampling stage of `get_race_telemetry_core`, exposed for
specification purposes (it recomputes exactly what the core computes at
lines 211-232). -/
def resampledOf (s : Session) : Option (List (String × DriverTrace)) :=
  match gather s with
  | .error _ => none
  | .ok acc =>
    match acc.gmin, acc.gmax with
    | some gmin, some gmax =>
      some (acc.driver_data.map (fun p => (p.1, resampleDriver (mkTimeline gmin gmax) gmin p.2)))
    | _, _ => none

/-! ## Cache layer -/

/-- A parsed JSON document, for the cached-payload gate. -/
inductive Json where
  | null : Json
  | bool : Bool → Json
  | num : ℚ → Json
  | str : String → Json
  | arr : List Json → Json
  | obj : List (String × Json) → Json

/-- Python truthiness of a value parsed by `json.load`. -/
def truthy : Json → Bool
  | .null => false
  | .bool b => b
  | .num q => decide (q ≠ 0)
  | .str s => decide (s ≠ "")
  | .arr l => !l.isEmpty
  | .obj l => !l.isEmpty

/-- `_load_cached` (lines 54-63): `none` when the file does not exist or
`json.load` raises; the parsed document otherwise. -/
def load_cached (cacheFile : Option (Except Unit Json)) : Option Json :=
  match cacheFile with
  | none => none
  | some (.error _) => none
  | some (.ok v) => some v

/-- `get_race_telemetry` (lines 42-321): unless the refresh flag is given,
a cached document that loaded and is truthy is returned (`Sum.inl`);
otherwise the payload is recomputed (`Sum.inr`). -/
def get_race_telemetry (refreshFlag : Bool) (cacheFile : Option (Except Unit Json))
    (s : Session) : Except String (Json ⊕ Payload) :=
  if refreshFlag = false then
    match load_cached cacheFile with
    | some cached =>
      if truthy cached then .ok (.inl cached)
      else (get_race_telemetry_core s).map (fun p => .inr p)
    | none => (get_race_telemetry_core s).map (fun p => .inr p)
  else (get_race_telemetry_core s).map (fun p => .inr p)

/-! ## Derived predicates and per-driver summaries used in specifications -/

/-- Whether an `Except` result is a success. -/
def isOkE {ε α : Type} : Except ε α → Bool
  | .ok _ => true
  | .error _ => false

/-- A lap that crashes the channel resolution of lines 140-142: nonempty,
with both speed channels absent (line 140), or with `nGear` absent
(line 141), or with `DRS` absent (line 142) — the last two because the
coded all-zero fallback is unreachable. -/
def crashLap (lap : Lap) : Bool :=
  match lap.telemetry with
  | none => false
  | some lt => !lt.sessionTime.isEmpty &&
      ((lt.speed.isNone && lt.speedKph.isNone) || lt.nGear.isNone || lt.drs.isNone)

/-- Whether processing this driver's laps raises the uncaught speed error. -/
def driverCrashes (d : Driver) : Bool :=
  match d.laps with
  | none => false
  | some laps => !laps.isEmpty && laps.any crashLap

/-- Whether the driver contributes a usable `DriverTrace`. -/
def producesTrace (d : Driver) : Bool :=
  match processDriver d with
  | .ok s => s.entry.isSome
  | .error _ => false

/-- The driver's `(code, trace)` contribution to `driver_data`, if any. -/
def entryOf (d : Driver) : Option (String × DriverTrace) :=
  match processDriver d with
  | .ok s => s.entry
  | .error _ => none

/-- The driver's contribution to `max_lap_number`, if any. -/
def lapMaxOf (d : Driver) : Option ℤ :=
  match processDriver d with
  | .ok s => s.lapMax
  | .error _ => none

/-- The driver's contribution to `global_t_min`, if any. -/
def tminOf (d : Driver) : Option ℚ := (entryOf d).map (fun e => npMin e.2.t)

/-- The driver's contribution to `global_t_max`, if any. -/
def tmaxOf (d : Driver) : Option ℚ := (entryOf d).map (fun e => npMax e.2.t)

/-- One `global_t_min` update (line 201). -/
def optMinStep (o : Option ℚ) (t : ℚ) : Option ℚ :=
  some (match o with | none => t | some g => min g t)

/-- One `global_t_max` update (line 202). -/
def optMaxStep (o : Option ℚ) (t : ℚ) : Option ℚ :=
  some (match o with | none => t | some g => max g t)

/-- No two drivers share a resampled cumulative distance at any tick. -/
def distinctDists (s : Session) : Bool :=
  match resampledOf s, timelineOf s with
  | some rs, some tl =>
    (List.range tl.length).all (fun i => decide ((rs.map (fun p => p.2.dist.getD i 0)).Nodup))
  | _, _ => true

/-- All channels of a trace have the length of its time array (true of every
trace assembled from a well-formed dataframe). -/
def channelsWF (d : DriverTrace) : Prop :=
  d.x.length = d.t.length ∧ d.y.length = d.t.length ∧ d.dist.length = d.t.length ∧
  d.rel_dist.length = d.t.length ∧ d.lap.length = d.t.length ∧ d.tyre.length = d.t.length ∧
  d.speed.length = d.t.length ∧ d.gear.length = d.t.length ∧ d.drs.length = d.t.length

/-! ## Concrete test inputs used by witnesses and counterexamples -/

/-- A fully-populated lap dataframe over the given times and distances. -/
def mkLapTel (ts ds : List ℚ) : LapTel :=
  ⟨ts, ds, ds, ds, some ds, some ds, none, some (zerosLike ts), some (zerosLike ts)⟩

/-- A fully-populated lap. -/
def mkLap (n : ℤ) (ts ds : List ℚ) : Lap := ⟨n, "SOFT", some (mkLapTel ts ds)⟩

/-- A driver whose abbreviation resolves to `code`. -/
def mkDriver (code : String) (laps : List Lap) : Driver := ⟨code, some code, some laps⟩

/-- A nonempty lap with both `Speed` and `SpeedKph` absent. -/
def lapCrash : Lap := ⟨1, "SOFT", some ⟨[0], [0], [0], [0], none, none, none, none, none⟩⟩

/-- Fallback payload for extraction helpers. -/
def emptyPayload : Payload := ⟨[], [], [], 0⟩

/-- Fallback accumulator for extraction helpers. -/
def emptyAcc : GatherAcc := ⟨[], none, none, 0⟩

/-- Fallback status interval for `getD`. -/
def dSI : StatusInterval := ⟨"", 0, none⟩

/-- A session with no drivers. -/
def S0 : Session := ⟨[], [], none⟩

/-- A driver with one fully usable lap. -/
def dGood : Driver := mkDriver "AAA" [mkLap 1 [0, 1] [0, 10]]

/-- A session with a usable driver and a driver whose lap has no speed
channel at all. -/
def S1 : Session := ⟨[dGood, mkDriver "BBB" [lapCrash]], [("AAA", "#ff0080")], none⟩

/-- A session whose global time span is exactly one timeline step. -/
def S3 : Session := ⟨[mkDriver "AAA" [mkLap 1 [0, 1/25] [0, 10]]], [], none⟩

/-- Two drivers with pairwise-distinct cumulative distances at every tick. -/
def SAB : Session :=
  ⟨[mkDriver "AAA" [mkLap 1 [0, 1/30] [0, 10]], mkDriver "BBB" [mkLap 1 [0, 1/30] [1, 9]]],
   [("AAA", "#102030")], some [(0, "1"), (1/50, "4")]⟩

/-- `SAB` with its drivers processed in the opposite order. -/
def SBA : Session :=
  ⟨[mkDriver "BBB" [mkLap 1 [0, 1/30] [1, 9]], mkDriver "AAA" [mkLap 1 [0, 1/30] [0, 10]]],
   [("AAA", "#102030")], some [(0, "1"), (1/50, "4")]⟩

/-- Two drivers with identical traces (equal cumulative distance at every
tick). -/
def S6a : Session := ⟨[mkDriver "AAA" [mkLap 1 [0] [5]], mkDriver "BBB" [mkLap 1 [0] [5]]], [], none⟩

/-- `S6a` with its drivers processed in the opposite order. -/
def S6b : Session := ⟨[mkDriver "BBB" [mkLap 1 [0] [5]], mkDriver "AAA" [mkLap 1 [0] [5]]], [], none⟩

/-- A driver whose only lap (number 5) fails telemetry retrieval: it
contributes no trace, but its lap number is observed at line 115. -/
def dExcluded : Driver := ⟨"7", some "BBB", some [⟨5, "SOFT", none⟩]⟩

/-- A session with one usable driver and one fully-excluded driver. -/
def S7 : Session := ⟨[mkDriver "AAA" [mkLap 1 [0, 1/30] [0, 10]], dExcluded], [("AAA", "#102030")], none⟩

/-- The payload computed for `SAB`. -/
def PAB : Payload := (get_race_telemetry_core SAB).toOption.getD emptyPayload

/-- The first frame of `PAB`. -/
def FAB : Frame := PAB.frames.headD ⟨0, 0, []⟩

/-- The gather state computed for `SAB`. -/
def AAB : GatherAcc := (gather SAB).toOption.getD emptyAcc

/-- The gather state computed for `S7`. -/
def A7 : GatherAcc := (gather S7).toOption.getD emptyAcc

/-- The payload computed for `S7`. -/
def P7 : Payload := (get_race_telemetry_core S7).toOption.getD emptyPayload

/-- First lap of the cumulative-distance example: distances `[0, 10]`. -/
def exLapA : Lap := mkLap 1 [0, 1] [0, 10]

/-- Second lap of the cumulative-distance example: distances `[0, 5]`. -/
def exLapB : Lap := mkLap 2 [2, 3] [0, 5]

/-- The concatenated race-cumulative distances of the two example laps. -/
def exampleCumDist : List ℚ :=
  match [exLapA, exLapB].foldlM processLap (0, partsEmpty) with
  | .ok res => res.2.dist.flatten
  | .error _ => []

/-- A lap dataframe with `RelativeDistance` and `Speed` absent and
`SpeedKph`, `nGear` and `DRS` present. -/
def ltOpt : LapTel := ⟨[0, 1], [0, 1], [0, 1], [3, 4], none, none, some [7, 8], some [1, 1], some [0, 0]⟩

/-- A nonempty lap with `Speed` present but `nGear` absent. -/
def lapGear : Lap := ⟨1, "SOFT", some ⟨[0], [0], [0], [0], none, some [100], none, none, some [0]⟩⟩

/-- A nonempty lap with `Speed` and `nGear` present but `DRS` absent. -/
def lapDrs : Lap := ⟨1, "SOFT", some ⟨[0], [0], [0], [0], none, some [100], none, some [3], none⟩⟩

/-- The lap carrying `ltOpt`. -/
def lapOpt : Lap := ⟨1, "SOFT", some ltOpt⟩

/-- The result of processing `lapOpt` from the initial state. -/
def resOpt : ℚ × Parts :=
  match processLap (0, partsEmpty) lapOpt with
  | .ok r => r
  | .error _ => (0, partsEmpty)

/-- A two-sample trace used for interpolation witnesses. -/
def d8 : DriverTrace := ⟨[0, 1], [0, 4], [0, 4], [0, 4], [0, 4], [1, 1], [1, 1], [0, 4], [0, 4], [0, 4]⟩

/-- A timeline probing both clamp regions and the interior. -/
def tl8 : List ℚ := [-1, 1/2, 5]

/-- A lap whose telemetry retrieval raised. -/
def lapSkip : Lap := ⟨3, "SOFT", none⟩

/-- The lap-loop state after the first example lap. -/
def resA5 : ℚ × Parts :=
  match processLap (0, partsEmpty) exLapA with
  | .ok r => r
  | .error _ => (0, partsEmpty)

/-- The lap-loop state after both example laps. -/
def resB5 : ℚ × Parts :=
  match processLap resA5 exLapB with
  | .ok r => r
  | .error _ => (0, partsEmpty)

end F1

namespace F1

attribute [local semireducible] Rat.add Rat.mul Rat.inv Rat.sub Rat.ofScientific

/-! ## Basic facts about the executable floor and ceiling -/

theorem ratFloor_eq (q : ℚ) : ratFloor q = ⌊q⌋ := Rat.floor_def.symm

theorem ratCeil_eq (q : ℚ) : ratCeil q = ⌈q⌉ := by
  rw [ratCeil, ratFloor_eq, Int.floor_neg, neg_neg]

/-! ## Status Interval Builder lemmas -/

theorem setLastEnd_cons_cons (e : ℚ) (a b : StatusInterval) (r : List StatusInterval) :
    setLastEnd e (a :: b :: r) = a :: setLastEnd e (b :: r) := rfl

theorem setLastEnd_length (e : ℚ) :
    ∀ l : List StatusInterval, (setLastEnd e l).length = l.length
  | [] => rfl
  | [_] => rfl
  | _ :: b :: r => by
    rw [setLastEnd_cons_cons]
    simp [setLastEnd_length e (b :: r)]

theorem setLastEnd_getD_start (e : ℚ) :
    ∀ (l : List StatusInterval) (i : ℕ) (d : StatusInterval),
      ((setLastEnd e l).getD i d).start_time = (l.getD i d).start_time ∧
      ((setLastEnd e l).getD i d).status = (l.getD i d).status
  | [], _, _ => ⟨rfl, rfl⟩
  | [_], 0, _ => ⟨rfl, rfl⟩
  | [_], _ + 1, _ => ⟨rfl, rfl⟩
  | _ :: _ :: _, 0, _ => ⟨rfl, rfl⟩
  | _ :: b :: r, i + 1, d => by
    rw [setLastEnd_cons_cons]
    simpa using setLastEnd_getD_start e (b :: r) i d

theorem setLastEnd_getD_of_lt (e : ℚ) :
    ∀ (l : List StatusInterval) (i : ℕ) (d : StatusInterval), i + 1 < l.length →
      (setLastEnd e l).getD i d = l.getD i d
  | [], _, _, h => by simp at h
  | [_], _, _, h => by simp at h
  | _ :: _ :: _, 0, _, _ => rfl
  | _ :: b :: r, i + 1, d, h => by
    rw [setLastEnd_cons_cons]
    simpa using setLastEnd_getD_of_lt e (b :: r) i d (by simpa using h)

theorem setLastEnd_getD_last (e : ℚ) :
    ∀ (l : List StatusInterval) (i : ℕ) (d : StatusInterval), i + 1 = l.length →
      (setLastEnd e l).getD i d = { l.getD i d with end_time := some e }
  | [], _, _, h => by simp at h
  | [_], 0, _, _ => rfl
  | [_], _ + 1, _, h => by simp at h
  | _ :: _ :: r, 0, _, h => by simp at h
  | _ :: b :: r, i + 1, d, h => by
    rw [setLastEnd_cons_cons]
    simpa using setLastEnd_getD_last e (b :: r) i d (by simpa using h)

theorem getD_append_left {α : Type} (l l' : List α) (i : ℕ) (d : α) (h : i < l.length) :
    (l ++ l').getD i d = l.getD i d := by
  simp [List.getD_eq_getElem?_getD, List.getElem?_append_left h]

theorem getD_append_right_self {α : Type} (l l' : List α) (i : ℕ) (d : α) (h : l.length ≤ i) :
    (l ++ l').getD i d = l'.getD (i - l.length) d := by
  simp [List.getD_eq_getElem?_getD, List.getElem?_append_right h]

theorem statusFold_spec (gmin : ℚ) (evs : List (ℚ × String)) :
    (evs.foldl (addStatus gmin) []).length = evs.length ∧
    (∀ i d, i < evs.length →
      ((evs.foldl (addStatus gmin) []).getD i d).start_time = (evs.getD i (0, "")).1 - gmin ∧
      ((evs.foldl (addStatus gmin) []).getD i d).status = (evs.getD i (0, "")).2) ∧
    (∀ i d, i + 1 < evs.length →
      ((evs.foldl (addStatus gmin) []).getD i d).end_time =
        some ((evs.getD (i + 1) (0, "")).1 - gmin)) ∧
    (∀ d, evs ≠ [] → ((evs.foldl (addStatus gmin) []).getLastD d).end_time = none) := by
  induction evs using List.reverseRecOn with
  | nil =>
    refine ⟨rfl, fun i d h => absurd h (Nat.not_lt_zero i), fun i d h => ?_, fun d h => absurd rfl h⟩
    simp at h
  | append_singleton evs e ih =>
    obtain ⟨ihlen, ihstart, ihend, _⟩ := ih
    have hfold : (evs ++ [e]).foldl (addStatus gmin) [] =
        setLastEnd (e.1 - gmin) (evs.foldl (addStatus gmin) []) ++ [⟨e.2, e.1 - gmin, none⟩] := by
      rw [List.foldl_append]
      rfl
    have hlen' : (setLastEnd (e.1 - gmin) (evs.foldl (addStatus gmin) [])).length = evs.length := by
      rw [setLastEnd_length, ihlen]
    refine ⟨?_, ?_, ?_, ?_⟩
    · rw [hfold]
      simp [hlen']
    · intro i d h
      rw [hfold]
      rcases Nat.lt_succ_iff_lt_or_eq.mp (by simpa using h) with h' | h'
      · rw [getD_append_left _ _ _ _ (by omega), getD_append_left _ _ _ _ (by omega)]
        constructor
        · rw [(setLastEnd_getD_start _ _ _ _).1, (ihstart i d h').1]
        · rw [(setLastEnd_getD_start _ _ _ _).2, (ihstart i d h').2]
      · subst h'
        rw [getD_append_right_self _ _ _ _ (by omega), getD_append_right_self _ _ _ _ (by omega)]
        simp [hlen', ihlen]
    · intro i d h
      rw [hfold]
      have hi : i < evs.length := by simpa using h
      rw [getD_append_left _ _ _ _ (by omega)]
      rcases Nat.lt_or_ge (i + 1) evs.length with h' | h'
      · rw [setLastEnd_getD_of_lt _ _ _ _ (by omega), ihend i d h',
          getD_append_left _ _ _ _ (by omega)]
      · have he : i + 1 = evs.length := by omega
        rw [setLastEnd_getD_last _ _ _ _ (by omega)]
        rw [getD_append_right_self _ _ _ _ (by omega)]
        simp [he]
    · intro d _
      rw [hfold, List.getLastD_concat]

/-- C9: for a status-change event list processed in arrival order, every
produced interval except the last has `end_time` equal to the next
interval's `start_time`, the last interval's `end_time` is `none`, every
`start_time` is the event's absolute time minus `global_t_min`, and an
absent status stream yields an empty interval list (no error). -/
theorem c9_status_intervals (gmin : ℚ) :
    buildStatuses gmin none = [] ∧
    ∀ evs : List (ℚ × String),
      (buildStatuses gmin (some evs)).length = evs.length ∧
      (∀ i, i < evs.length →
        ((buildStatuses gmin (some evs)).getD i dSI).start_time =
          (evs.getD i (0, "")).1 - gmin ∧
        ((buildStatuses gmin (some evs)).getD i dSI).status = (evs.getD i (0, "")).2) ∧
      (∀ i, i + 1 < (buildStatuses gmin (some evs)).length →
        ((buildStatuses gmin (some evs)).getD i dSI).end_time =
          some (((buildStatuses gmin (some evs)).getD (i + 1) dSI).start_time)) ∧
      (evs ≠ [] → ((buildStatuses gmin (some evs)).getLastD dSI).end_time = none) := by
  refine ⟨rfl, fun evs => ?_⟩
  obtain ⟨hlen, hstart, hend, hlast⟩ := statusFold_spec gmin evs
  refine ⟨hlen, fun i h => hstart i dSI h, fun i h => ?_, fun h => hlast dSI h⟩
  have hi : i + 1 < evs.length := by
    have := hlen
    simp only [buildStatuses] at h
    omega
  have h2 := (hstart (i + 1) dSI hi).1
  simp only [buildStatuses] at *
  rw [hend i dSI hi, h2]

/-- C10: with the refresh flag absent, a cached document is returned in
place of recomputation exactly when the cache file exists, parses, and
parses to a truthy value; a falsy parsed value or a parse failure (and a
missing file) lead to a full recompute. -/
theorem c10_cache_gate (cacheFile : Option (Except Unit Json)) (s : Session) :
    (∀ v : Json, get_race_telemetry false cacheFile s = .ok (.inl v) ↔
      (cacheFile = some (.ok v) ∧ truthy v = true)) ∧
    (∀ v : Json, cacheFile = some (.ok v) → truthy v = false →
      get_race_telemetry false cacheFile s =
        (get_race_telemetry_core s).map (fun p => .inr p)) ∧
    (∀ e : Unit, cacheFile = some (.error e) →
      get_race_telemetry false cacheFile s =
        (get_race_telemetry_core s).map (fun p => .inr p)) ∧
    (cacheFile = none →
      get_race_telemetry false cacheFile s =
        (get_race_telemetry_core s).map (fun p => .inr p)) := by
  have key : ∀ cf : Option (Except Unit Json), get_race_telemetry false cf s =
      (match cf with
       | some (.ok v) =>
         if truthy v = true then .ok (.inl v)
         else (get_race_telemetry_core s).map (fun p => .inr p)
       | _ => (get_race_telemetry_core s).map (fun p => .inr p)) := by
    intro cf
    rcases cf with _ | f
    · rfl
    · rcases f with e | v
      · rfl
      · rfl
  have nocache : ∀ v : Json,
      (get_race_telemetry_core s).map (fun p => (.inr p : Json ⊕ Payload)) ≠ .ok (.inl v) := by
    intro v h
    cases hcore : get_race_telemetry_core s <;> rw [hcore] at h <;> simp [Except.map] at h
  refine ⟨fun v => ?_, fun v hv htr => ?_, fun e he => ?_, fun hn => ?_⟩
  · rw [key]
    constructor
    · intro h
      rcases cacheFile with _ | f
      · exact absurd h (nocache v)
      · rcases f with e | w
        · exact absurd h (nocache v)
        · simp only at h
          by_cases htr : truthy w = true
          · rw [if_pos htr] at h
            simp only [Except.ok.injEq, Sum.inl.injEq] at h
            subst h
            exact ⟨rfl, htr⟩
          · rw [if_neg htr] at h
            exact absurd h (nocache v)
    · rintro ⟨h1, h2⟩
      subst h1
      simp only [if_pos h2]
  · subst hv
    rw [key]
    simp only [htr]
    simp
  · subst he
    rw [key]
  · subst hn
    rw [key]

/-- Witness for C10: with the refresh flag absent, a falsy cached `null`
forces a recompute, and a truthy cached number is returned directly. -/
theorem c10_cache_gate_witness :
    get_race_telemetry false (some (.ok Json.null)) S0 =
      (get_race_telemetry_core S0).map (fun p => .inr p) ∧
    get_race_telemetry false (some (.ok (Json.num 1))) S0 = .ok (.inl (Json.num 1)) :=
  ⟨(c10_cache_gate (some (.ok Json.null)) S0).2.1 Json.null rfl rfl,
   ((c10_cache_gate (some (.ok (Json.num 1))) S0).1 (Json.num 1)).mpr ⟨rfl, by decide⟩⟩

/-- Witness for C9: a concrete two-event stream at `global_t_min = 3`. -/
theorem c9_status_intervals_witness :
    buildStatuses 3 none = [] ∧
    (buildStatuses 3 (some [(5, "1"), (9, "4")])).length = 2 ∧
    ((buildStatuses 3 (some [(5, "1"), (9, "4")])).getD 0 dSI).end_time =
      some (((buildStatuses 3 (some [(5, "1"), (9, "4")])).getD 1 dSI).start_time) ∧
    ((buildStatuses 3 (some [(5, "1"), (9, "4")])).getLastD dSI).end_time = none :=
  ⟨(c9_status_intervals 3).1,
   ((c9_status_intervals 3).2 [(5, "1"), (9, "4")]).1,
   ((c9_status_intervals 3).2 [(5, "1"), (9, "4")]).2.2.1 0 (by decide),
   ((c9_status_intervals 3).2 [(5, "1"), (9, "4")]).2.2.2 (by decide)⟩


/-! ## Lap Assembler lemmas -/

theorem processLap_some_ne (acc : ℚ × Parts) (lap : Lap) (lt : LapTel)
    (hlt : lap.telemetry = some lt) (hne : lt.sessionTime ≠ []) (sp : List ℚ)
    (hsp : resolveSpeed lt = .ok sp) (gr : List ℚ) (hgr : lt.nGear = some gr)
    (dr : List ℚ) (hdr : lt.drs = some dr) :
    processLap acc lap = .ok
      ((lt.distance.map (fun v => acc.1 + v)).getLastD acc.1,
       { t := acc.2.t ++ [lt.sessionTime]
         x := acc.2.x ++ [lt.x]
         y := acc.2.y ++ [lt.y]
         dist := acc.2.dist ++ [lt.distance.map (fun v => acc.1 + v)]
         rel_dist := acc.2.rel_dist ++ [lt.relativeDistance.getD lt.distance]
         lap := acc.2.lap ++ [lt.sessionTime.map (fun _ => ((lap.lapNumber : ℤ) : ℚ))]
         tyre := acc.2.tyre ++ [lt.sessionTime.map (fun _ => ((get_tyre_compound_int lap.compound : ℤ) : ℚ))]
         speed := acc.2.speed ++ [sp]
         gear := acc.2.gear ++ [gr]
         drs := acc.2.drs ++ [dr] }) := by
  simp only [processLap, hlt, if_neg hne, hsp, hgr, hdr, resolveChannel]

theorem processLap_skip_none (acc : ℚ × Parts) (lap : Lap) (h : lap.telemetry = none) :
    processLap acc lap = .ok acc := by
  simp [processLap, h]

theorem processLap_skip_empty (acc : ℚ × Parts) (lap : Lap) (lt : LapTel)
    (h1 : lap.telemetry = some lt) (h2 : lt.sessionTime = []) :
    processLap acc lap = .ok acc := by
  simp [processLap, h1, if_pos h2]

theorem processLap_isOk (acc : ℚ × Parts) (lap : Lap) :
    isOkE (processLap acc lap) = !crashLap lap := by
  cases hlt : lap.telemetry with
  | none => simp [processLap, crashLap, hlt, isOkE]
  | some lt =>
    simp only [processLap, crashLap, hlt]
    by_cases hne : lt.sessionTime = []
    · rw [if_pos hne]
      simp [isOkE, hne]
    · rw [if_neg hne]
      cases hs : lt.speed <;> cases hk : lt.speedKph <;>
        cases hgr : lt.nGear <;> cases hdr : lt.drs <;>
        simp [resolveSpeed, resolveChannel, hs, hk, hgr, hdr, isOkE,
          List.isEmpty_iff, hne]

theorem processLap_error_msg (acc : ℚ × Parts) (lap : Lap) (e : String)
    (h : processLap acc lap = .error e) : e = speedErrMsg ∨ e = ndarrayErrMsg := by
  cases hlt : lap.telemetry with
  | none => rw [processLap_skip_none acc lap hlt] at h; cases h
  | some lt =>
    by_cases hne : lt.sessionTime = []
    · rw [processLap_skip_empty acc lap lt hlt hne] at h; cases h
    · cases hsp : resolveSpeed lt with
      | ok sp =>
        cases hgr : lt.nGear with
        | none =>
          simp only [processLap, hlt, if_neg hne, hsp, hgr, resolveChannel] at h
          cases h
          exact Or.inr rfl
        | some gr =>
          cases hdr : lt.drs with
          | none =>
            simp only [processLap, hlt, if_neg hne, hsp, hgr, hdr, resolveChannel] at h
            cases h
            exact Or.inr rfl
          | some dr =>
            rw [processLap_some_ne acc lap lt hlt hne sp hsp gr hgr dr hdr] at h
            cases h
      | error e' =>
        have he' : e' = speedErrMsg := by
          cases hs : lt.speed with
          | some s => rw [resolveSpeed, hs] at hsp; cases hsp
          | none =>
            cases hk : lt.speedKph with
            | some s => rw [resolveSpeed, hs] at hsp; simp [hk] at hsp
            | none =>
              rw [resolveSpeed, hs] at hsp
              simp [hk] at hsp
              exact hsp.symm
        simp only [processLap, hlt, if_neg hne, hsp] at h
        cases h
        exact Or.inl he'

/-- C2 counterexample: a nonempty lap with both `Speed` and `SpeedKph`
absent makes the optional-channel resolution raise an uncaught error, and a
nonempty lap with `nGear` absent (speed present) does not receive the
claimed all-zero array either: its resolution raises an uncaught error too,
so resolving an absent optional channel is neither error-free nor, for
`nGear`/`DRS`, zero-filling as claimed. -/
theorem c2_counterexample :
    lapCrash.telemetry = some ⟨[0], [0], [0], [0], none, none, none, none, none⟩ ∧
    processLap (0, partsEmpty) lapCrash = .error speedErrMsg ∧
    lapGear.telemetry = some ⟨[0], [0], [0], [0], none, some [100], none, none, some [0]⟩ ∧
    processLap (0, partsEmpty) lapGear = .error ndarrayErrMsg := ⟨rfl, rfl, rfl, rfl⟩

/-- C2 (amended): an absent `RelativeDistance` falls back to the lap's
`Distance` values and an absent `Speed` falls back to `SpeedKph` when that
is present; but the all-zero fallback for `nGear`/`DRS` never takes effect:
on a nonempty lap an absent `nGear` or `DRS` raises an uncaught ndarray
`AttributeError`, as does the both-speed-channels-absent case (with a
different `AttributeError`). -/
theorem c2_channel_fallbacks (acc : ℚ × Parts) (lap : Lap) (lt : LapTel)
    (hlt : lap.telemetry = some lt) (hne : lt.sessionTime ≠ []) :
    (lt.speed = none → lt.speedKph = none → processLap acc lap = .error speedErrMsg) ∧
    (∀ sp, resolveSpeed lt = .ok sp → lt.nGear = none →
      processLap acc lap = .error ndarrayErrMsg) ∧
    (∀ sp gr, resolveSpeed lt = .ok sp → lt.nGear = some gr → lt.drs = none →
      processLap acc lap = .error ndarrayErrMsg) ∧
    (∀ res : ℚ × Parts, processLap acc lap = .ok res →
      (lt.relativeDistance = none → res.2.rel_dist = acc.2.rel_dist ++ [lt.distance]) ∧
      (∀ sk, lt.speed = none → lt.speedKph = some sk → res.2.speed = acc.2.speed ++ [sk])) := by
  refine ⟨?_, ?_, ?_, ?_⟩
  · intro h1 h2
    simp only [processLap, hlt, if_neg hne, resolveSpeed, h1, h2]
  · intro sp hsp hgr
    simp only [processLap, hlt, if_neg hne, hsp, hgr, resolveChannel]
  · intro sp gr hsp hgr hdr
    simp only [processLap, hlt, if_neg hne, hsp, hgr, hdr, resolveChannel]
  · intro res hok
    cases hsp : resolveSpeed lt with
    | error e =>
      simp only [processLap, hlt, if_neg hne, hsp] at hok
      cases hok
    | ok sp =>
      cases hgr : lt.nGear with
      | none =>
        simp only [processLap, hlt, if_neg hne, hsp, hgr, resolveChannel] at hok
        cases hok
      | some gr =>
        cases hdr : lt.drs with
        | none =>
          simp only [processLap, hlt, if_neg hne, hsp, hgr, hdr, resolveChannel] at hok
          cases hok
        | some dr =>
          rw [processLap_some_ne acc lap lt hlt hne sp hsp gr hgr dr hdr] at hok
          have hres := (Except.ok.injEq _ _).mp hok.symm
          subst hres
          refine ⟨fun hrel => by simp [hrel], fun sk hs hsk => ?_⟩
          have : sp = sk := by
            rw [resolveSpeed, hs] at hsp
            simp [hsk] at hsp
            exact hsp.symm
          simp [this]

/-- Witness for C2: processing a lap with `RelativeDistance` and `Speed`
absent and `SpeedKph = [7, 8]` present recovers both channels; a lap with
`nGear` absent and a lap with `DRS` absent each abort with the ndarray
error. -/
theorem c2_channel_fallbacks_witness :
    resOpt.2.rel_dist = partsEmpty.rel_dist ++ [ltOpt.distance] ∧
    resOpt.2.speed = partsEmpty.speed ++ [[(7 : ℚ), 8]] ∧
    processLap (0, partsEmpty) lapGear = .error ndarrayErrMsg ∧
    processLap (0, partsEmpty) lapDrs = .error ndarrayErrMsg := by
  have H := (c2_channel_fallbacks (0, partsEmpty) lapOpt ltOpt rfl (by decide)).2.2.2 resOpt rfl
  have HG := (c2_channel_fallbacks (0, partsEmpty) lapGear
    ⟨[0], [0], [0], [0], none, some [100], none, none, some [0]⟩ rfl (by decide)).2.1
    [100] rfl rfl
  have HD := (c2_channel_fallbacks (0, partsEmpty) lapDrs
    ⟨[0], [0], [0], [0], none, some [100], none, some [3], none⟩ rfl (by decide)).2.2.1
    [100] [3] rfl rfl rfl
  exact ⟨H.1 rfl, H.2 [7, 8] rfl rfl, HG, HD⟩

/-- C5: a usable lap appends its own distance array shifted by the running
offset, and the offset becomes the appended array's last value (or stays
unchanged when the lap has no distance samples); a skipped lap (failed
retrieval or empty telemetry) leaves the state untouched; the two-lap
example `[0,10]` then `[0,5]` concatenates to `[0,10,10,15]`. -/
theorem c5_cumulative_distance :
    (∀ (total : ℚ) (parts : Parts) (lap : Lap) (lt : LapTel) (res : ℚ × Parts),
      lap.telemetry = some lt → lt.sessionTime ≠ [] →
      processLap (total, parts) lap = .ok res →
      res.2.dist = parts.dist ++ [lt.distance.map (fun v => total + v)] ∧
      res.1 = (lt.distance.map (fun v => total + v)).getLastD total) ∧
    (∀ (acc : ℚ × Parts) (lap : Lap), lap.telemetry = none → processLap acc lap = .ok acc) ∧
    (∀ (acc : ℚ × Parts) (lap : Lap) (lt : LapTel),
      lap.telemetry = some lt → lt.sessionTime = [] → processLap acc lap = .ok acc) ∧
    exampleCumDist = [0, 10, 10, 15] := by
  refine ⟨?_, processLap_skip_none, processLap_skip_empty, by decide⟩
  intro total parts lap lt res hlt hne hok
  cases hsp : resolveSpeed lt with
  | error e =>
    simp only [processLap, hlt, if_neg hne, hsp] at hok
    cases hok
  | ok sp =>
    cases hgr : lt.nGear with
    | none =>
      simp only [processLap, hlt, if_neg hne, hsp, hgr, resolveChannel] at hok
      cases hok
    | some gr =>
      cases hdr : lt.drs with
      | none =>
        simp only [processLap, hlt, if_neg hne, hsp, hgr, hdr, resolveChannel] at hok
        cases hok
      | some dr =>
        rw [processLap_some_ne (total, parts) lap lt hlt hne sp hsp gr hgr dr hdr] at hok
        have hres := (Except.ok.injEq _ _).mp hok.symm
        subst hres
        exact ⟨rfl, rfl⟩

/-- Witness for C5: the example laps yield appended distances `[10, 15]`
and offset `15`, and a lap whose retrieval failed leaves the state at
`(7, partsEmpty)`. -/
theorem c5_cumulative_distance_witness :
    resB5.2.dist = [[(0 : ℚ), 10], [10, 15]] ∧
    resB5.1 = 15 ∧
    processLap (7, partsEmpty) lapSkip = .ok (7, partsEmpty) := by
  have H := c5_cumulative_distance.1 resA5.1 resA5.2 exLapB (mkLapTel [2, 3] [0, 5]) resB5
    rfl (by decide) rfl
  refine ⟨?_, ?_, c5_cumulative_distance.2.1 (7, partsEmpty) lapSkip rfl⟩
  · rw [H.1]; decide
  · rw [H.2]; decide

/-! ## Timeline Builder lemmas -/

/-- C3 counterexample: for a session whose global time span is exactly one
timeline step, the constructed timeline has 2 instants while the claimed
formula `floor((global_max − global_min)/dt) + 2` gives 3. -/
theorem c3_counterexample :
    timelineOf S3 = some [0, 1/25] ∧
    (gather S3).toOption.map (fun a => (a.gmin, a.gmax)) = some (some 0, some (1/25)) ∧
    ([(0 : ℚ), 1/25]).length = 2 ∧
    (⌊(((1 : ℚ)/25) - 0) / DT⌋).toNat + 2 = 3 := by
  refine ⟨by decide, by decide, by decide, ?_⟩
  rw [← ratFloor_eq]
  decide

/-- C3 (amended): the timeline starts at 0, advances in steps of `DT`, and
has `ceil((global_max − global_min)/dt) + 1` instants, which equals the
claimed `floor((global_max − global_min)/dt) + 2` exactly when the span is
not an integer multiple of `dt`. -/
theorem c3_timeline_shape (s : Session) (acc : GatherAcc) (gmin gmax : ℚ)
    (hacc : gather s = .ok acc) (h1 : acc.gmin = some gmin) (h2 : acc.gmax = some gmax)
    (hle : gmin ≤ gmax) :
    timelineOf s = some (mkTimeline gmin gmax) ∧
    (mkTimeline gmin gmax).length = (⌈(gmax - gmin) / DT⌉).toNat + 1 ∧
    (mkTimeline gmin gmax).getD 0 1 = 0 ∧
    (∀ i, i < (mkTimeline gmin gmax).length → (mkTimeline gmin gmax).getD i 0 = (i : ℚ) * DT) ∧
    ((gmax - gmin) / DT ≠ ((⌊(gmax - gmin) / DT⌋ : ℤ) : ℚ) →
      (mkTimeline gmin gmax).length = (⌊(gmax - gmin) / DT⌋).toNat + 2) := by
  have hdt : (0 : ℚ) < DT := by norm_num [DT, FPS]
  have hdt' : DT ≠ 0 := ne_of_gt hdt
  have hx : (0 : ℚ) ≤ (gmax - gmin) / DT := div_nonneg (sub_nonneg.mpr hle) (le_of_lt hdt)
  have hkey : (gmax + DT - gmin) / DT = (gmax - gmin) / DT + 1 := by
    field_simp
    ring
  have hlen_ar : (mkTimeline gmin gmax).length = (ratCeil ((gmax + DT - gmin) / DT)).toNat := by
    simp [mkTimeline, arange]
  have hlen : (mkTimeline gmin gmax).length = (⌈(gmax - gmin) / DT⌉).toNat + 1 := by
    rw [hlen_ar, ratCeil_eq, hkey, Int.ceil_add_one,
      Int.toNat_add (Int.ceil_nonneg hx) (by norm_num), Int.toNat_one]
  have hget : ∀ (i : ℕ) (d : ℚ), i < (mkTimeline gmin gmax).length →
      (mkTimeline gmin gmax).getD i d = (i : ℚ) * DT := by
    intro i d hi
    rw [hlen_ar] at hi
    rw [mkTimeline, arange, List.map_map, List.getD_eq_getElem?_getD, List.getElem?_map,
      List.getElem?_range hi]
    simp
    try ring
  refine ⟨?_, hlen, ?_, fun i hi => hget i 0 hi, fun hni => ?_⟩
  · simp [timelineOf, hacc, h1, h2]
  · have h0 : 0 < (mkTimeline gmin gmax).length := by rw [hlen]; omega
    rw [hget 0 1 h0]
    simp
  · have hfl : ((⌊(gmax - gmin) / DT⌋ : ℤ) : ℚ) < (gmax - gmin) / DT :=
      lt_of_le_of_ne (Int.floor_le _) (fun h => hni h.symm)
    have hceil : ⌈(gmax - gmin) / DT⌉ = ⌊(gmax - gmin) / DT⌋ + 1 := by
      have hub := Int.ceil_le_floor_add_one ((gmax - gmin) / DT)
      have hlb : ⌊(gmax - gmin) / DT⌋ < ⌈(gmax - gmin) / DT⌉ := Int.lt_ceil.mpr hfl
      omega
    rw [hlen, hceil, Int.toNat_add (Int.floor_nonneg.mpr hx) (by norm_num), Int.toNat_one]


/-- Witness for C3: the two-driver session `SAB` spans `[0, 1/30]`, whose
timeline has 2 instants, starts at 0, and (the span not being a multiple of
`dt`) matches the `floor + 2` formula. -/
theorem c3_timeline_shape_witness :
    timelineOf SAB = some (mkTimeline 0 (1/30)) ∧
    (mkTimeline 0 (1/30)).length = 2 ∧
    (mkTimeline 0 (1/30)).getD 0 1 = 0 ∧
    (mkTimeline 0 (1/30)).length = (⌊((1 : ℚ)/30 - 0) / DT⌋).toNat + 2 := by
  have H := c3_timeline_shape SAB AAB 0 (1/30) rfl (by decide) (by decide) (by norm_num)
  refine ⟨H.1, ?_, H.2.2.1, H.2.2.2.2 ?_⟩
  · rw [H.2.1, ← ratCeil_eq]
    decide
  · rw [← ratFloor_eq]
    decide


/-! ## Sorting and dict lemmas -/

theorem insertCarDesc_nil (c : FrameCar) : insertCarDesc c [] = [c] := rfl

theorem insertCarDesc_cons (c c0 : FrameCar) (cs : List FrameCar) :
    insertCarDesc c (c0 :: cs) =
      if c0.dist ≤ c.dist then c :: c0 :: cs else c0 :: insertCarDesc c cs := rfl

theorem sortCarsDesc_cons (c : FrameCar) (cs : List FrameCar) :
    sortCarsDesc (c :: cs) = insertCarDesc c (sortCarsDesc cs) := rfl

theorem insertCarDesc_perm (c : FrameCar) (l : List FrameCar) : List.Perm (insertCarDesc c l) (c :: l) := by
  induction l with
  | nil => exact List.Perm.refl _
  | cons c0 cs ih =>
    rw [insertCarDesc_cons]
    by_cases h : c0.dist ≤ c.dist
    · rw [if_pos h]
    · rw [if_neg h]
      exact (ih.cons c0).trans (List.Perm.swap c c0 cs)

theorem sortCarsDesc_perm (l : List FrameCar) : List.Perm (sortCarsDesc l) l := by
  induction l with
  | nil => exact List.Perm.refl _
  | cons c cs ih =>
    rw [sortCarsDesc_cons]
    exact (insertCarDesc_perm c (sortCarsDesc cs)).trans (ih.cons c)

theorem insertCarDesc_pairwise (c : FrameCar) (l : List FrameCar)
    (h : l.Pairwise (fun a b => b.dist ≤ a.dist)) :
    (insertCarDesc c l).Pairwise (fun a b => b.dist ≤ a.dist) := by
  induction l with
  | nil => simp [insertCarDesc_nil]
  | cons c0 cs ih =>
    rw [insertCarDesc_cons]
    by_cases hc : c0.dist ≤ c.dist
    · rw [if_pos hc]
      refine List.Pairwise.cons ?_ h
      intro b hb
      rcases List.mem_cons.mp hb with rfl | hb2
      · exact hc
      · exact le_trans (List.rel_of_pairwise_cons h hb2) hc
    · rw [if_neg hc]
      have hlt : c.dist < c0.dist := not_le.mp hc
      refine List.Pairwise.cons ?_ (ih (List.Pairwise.sublist (List.sublist_cons_self c0 cs) h))
      intro b hb
      have hb' : b ∈ c :: cs := (insertCarDesc_perm c cs).subset hb
      rcases List.mem_cons.mp hb' with rfl | hb2
      · exact le_of_lt hlt
      · exact List.rel_of_pairwise_cons h hb2

theorem sortCarsDesc_pairwise (l : List FrameCar) :
    (sortCarsDesc l).Pairwise (fun a b => b.dist ≤ a.dist) := by
  induction l with
  | nil => exact List.Pairwise.nil
  | cons c cs ih =>
    rw [sortCarsDesc_cons]
    exact insertCarDesc_pairwise c _ ih

theorem dictInsert_cons {α : Type} (k0 : String) (v0 : α) (rest : List (String × α))
    (k : String) (v : α) :
    dictInsert ((k0, v0) :: rest) k v =
      if k0 = k then (k, v) :: rest else (k0, v0) :: dictInsert rest k v := rfl

theorem dictInsert_ne_nil {α : Type} :
    ∀ (l : List (String × α)) (k : String) (v : α), dictInsert l k v ≠ []
  | [], _, _ => by simp [dictInsert]
  | (k0, v0) :: rest, k, v => by
    rw [dictInsert_cons]
    split <;> simp

theorem dictInsert_of_not_mem {α : Type} :
    ∀ (l : List (String × α)) (k : String) (v : α),
      k ∉ l.map Prod.fst → dictInsert l k v = l ++ [(k, v)]
  | [], _, _, _ => rfl
  | (k0, v0) :: rest, k, v, h => by
    simp only [List.map_cons, List.mem_cons, not_or] at h
    rw [dictInsert_cons, if_neg (fun he => h.1 he.symm),
      dictInsert_of_not_mem rest k v h.2]
    simp

theorem mem_keys_dictInsert {α : Type} :
    ∀ (l : List (String × α)) (k : String) (v : α) (k' : String),
      k' ∈ (dictInsert l k v).map Prod.fst ↔ (k' = k ∨ k' ∈ l.map Prod.fst)
  | [], k, v, k' => by simp [dictInsert]
  | (k0, v0) :: rest, k, v, k' => by
    rw [dictInsert_cons]
    by_cases h : k0 = k
    · subst h
      simp
    · rw [if_neg h]
      simp only [List.map_cons, List.mem_cons, mem_keys_dictInsert rest k v k']
      tauto

theorem nodup_keys_dictInsert {α : Type} :
    ∀ (l : List (String × α)) (k : String) (v : α),
      (l.map Prod.fst).Nodup → ((dictInsert l k v).map Prod.fst).Nodup
  | [], k, v, _ => by simp [dictInsert]
  | (k0, v0) :: rest, k, v, hnd => by
    simp only [List.map_cons, List.nodup_cons] at hnd
    rw [dictInsert_cons]
    by_cases h : k0 = k
    · subst h
      rw [if_pos rfl]
      simp only [List.map_cons, List.nodup_cons]
      exact hnd
    · rw [if_neg h]
      simp only [List.map_cons, List.nodup_cons, mem_keys_dictInsert rest k v k0]
      exact ⟨fun hc => hc.elim h hnd.1, nodup_keys_dictInsert rest k v hnd.2⟩

theorem foldl_dictInsert_ne_nil {α : Type} :
    ∀ (kvs : List (String × α)) (init : List (String × α)), init ≠ [] →
      kvs.foldl (fun m q => dictInsert m q.1 q.2) init ≠ []
  | [], init, h => by simpa using h
  | q :: kvs, init, _ => by
    simp only [List.foldl_cons]
    exact foldl_dictInsert_ne_nil kvs _ (dictInsert_ne_nil init q.1 q.2)

theorem foldl_dictInsert_nil_iff {α : Type} :
    ∀ (kvs : List (String × α)) (init : List (String × α)),
      (kvs.foldl (fun m q => dictInsert m q.1 q.2) init = [] ↔ (init = [] ∧ kvs = []))
  | [], init => by simp
  | q :: kvs, init => by
    simp only [List.foldl_cons]
    constructor
    · intro h
      exact absurd h (foldl_dictInsert_ne_nil kvs _ (dictInsert_ne_nil init q.1 q.2))
    · rintro ⟨_, h⟩
      cases h

theorem foldl_dictInsert_keys_nodup {α : Type} :
    ∀ (kvs : List (String × α)) (init : List (String × α)),
      (init.map Prod.fst).Nodup →
      ((kvs.foldl (fun m q => dictInsert m q.1 q.2) init).map Prod.fst).Nodup
  | [], init, h => h
  | q :: kvs, init, h => by
    simp only [List.foldl_cons]
    exact foldl_dictInsert_keys_nodup kvs _ (nodup_keys_dictInsert init q.1 q.2 h)

theorem mem_keys_foldl_dictInsert {α : Type} :
    ∀ (kvs : List (String × α)) (init : List (String × α)) (k : String),
      k ∈ (kvs.foldl (fun m q => dictInsert m q.1 q.2) init).map Prod.fst ↔
        (k ∈ init.map Prod.fst ∨ k ∈ kvs.map Prod.fst)
  | [], init, k => by simp
  | q :: kvs, init, k => by
    simp only [List.foldl_cons, mem_keys_foldl_dictInsert kvs _ k, mem_keys_dictInsert,
      List.map_cons, List.mem_cons]
    tauto

theorem dictFold_append {α : Type} :
    ∀ (kvs init : List (String × α)),
      (kvs.map Prod.fst).Nodup → (∀ k ∈ kvs.map Prod.fst, k ∉ init.map Prod.fst) →
      dictFold init kvs = init ++ kvs
  | [], init, _, _ => by simp [dictFold]
  | q :: kvs, init, hnd, hdisj => by
    simp only [List.map_cons, List.nodup_cons] at hnd
    have h1 : q.1 ∉ init.map Prod.fst := hdisj q.1 (by simp)
    have step : dictFold init (q :: kvs) = dictFold (init ++ [q]) kvs := by
      simp only [dictFold, List.foldl_cons, dictInsert_of_not_mem init q.1 q.2 h1]
    rw [step, dictFold_append kvs (init ++ [q]) hnd.2 ?_]
    · simp
    · intro k hk
      simp only [List.map_append, List.mem_append, not_or]
      exact ⟨fun hc => hdisj k (by simp [hk]) hc, by
        simp only [List.map_cons, List.map_nil, List.mem_singleton]
        exact fun he => hnd.1 (he ▸ hk)⟩


/-! ## Gather-loop characterisation -/

theorem exceptBind_ok {ε α β : Type} (a : α) (f : α → Except ε β) :
    (Except.ok a >>= f) = f a := rfl

theorem exceptBind_error {ε α β : Type} (e : ε) (f : α → Except ε β) :
    ((Except.error e : Except ε α) >>= f) = Except.error e := rfl

theorem exceptPure {ε α : Type} (a : α) : (pure a : Except ε α) = Except.ok a := rfl

theorem gatherStep_error (acc : GatherAcc) (d : Driver) (e : String)
    (h : processDriver d = .error e) : gatherStep acc d = .error e := by
  simp [gatherStep, h]

theorem gatherStep_ok_none (acc : GatherAcc) (d : Driver) (s : DriverSummary)
    (h : processDriver d = .ok s) (he : s.entry = none) :
    gatherStep acc d = .ok
      { acc with max_lap := match s.lapMax with
          | none => acc.max_lap
          | some m => max acc.max_lap m } := by
  simp [gatherStep, h, he]

theorem gatherStep_ok_some (acc : GatherAcc) (d : Driver) (s : DriverSummary)
    (code : String) (tr : DriverTrace)
    (h : processDriver d = .ok s) (he : s.entry = some (code, tr)) :
    gatherStep acc d = .ok
      { driver_data := dictInsert acc.driver_data code tr
        gmin := optMinStep acc.gmin (npMin tr.t)
        gmax := optMaxStep acc.gmax (npMax tr.t)
        max_lap := match s.lapMax with
          | none => acc.max_lap
          | some m => max acc.max_lap m } := by
  simp [gatherStep, h, he, optMinStep, optMaxStep]

theorem gather_fold_char :
    ∀ (l : List Driver) (acc acc' : GatherAcc),
      l.foldlM gatherStep acc = .ok acc' →
      acc'.driver_data =
        (l.filterMap entryOf).foldl (fun m q => dictInsert m q.1 q.2) acc.driver_data ∧
      acc'.gmin = (l.filterMap tminOf).foldl optMinStep acc.gmin ∧
      acc'.gmax = (l.filterMap tmaxOf).foldl optMaxStep acc.gmax ∧
      acc'.max_lap = (l.filterMap lapMaxOf).foldl max acc.max_lap
  | [], acc, acc', h => by
    cases h
    simp
  | d :: l, acc, acc', h => by
    rw [List.foldlM_cons] at h
    cases hpd : processDriver d with
    | error e =>
      rw [gatherStep_error acc d e hpd, exceptBind_error] at h
      cases h
    | ok s =>
      have hent : entryOf d = s.entry := by simp [entryOf, hpd]
      have hlm : lapMaxOf d = s.lapMax := by simp [lapMaxOf, hpd]
      have htm : tminOf d = s.entry.map (fun q => npMin q.2.t) := by
        simp [tminOf, hent]
      have htx : tmaxOf d = s.entry.map (fun q => npMax q.2.t) := by
        simp [tmaxOf, hent]
      cases he : s.entry with
      | none =>
        rw [gatherStep_ok_none acc d s hpd he, exceptBind_ok] at h
        have ih := gather_fold_char l _ acc' h
        simp only [List.filterMap_cons, hent, hlm, htm, htx, he, Option.map_none'] at *
        cases hsl : s.lapMax with
        | none => simpa [hsl] using ih
        | some m => simpa [hsl] using ih
      | some q =>
        obtain ⟨code, tr⟩ := q
        rw [gatherStep_ok_some acc d s code tr hpd he, exceptBind_ok] at h
        have ih := gather_fold_char l _ acc' h
        simp only [List.filterMap_cons, hent, hlm, htm, htx, he, Option.map_some'] at *
        cases hsl : s.lapMax with
        | none => simpa [hsl] using ih
        | some m => simpa [hsl] using ih

theorem foldlM_gatherStep_isOk :
    ∀ (l : List Driver) (acc : GatherAcc),
      isOkE (l.foldlM gatherStep acc) = l.all (fun d => isOkE (processDriver d))
  | [], acc => rfl
  | d :: l, acc => by
    rw [List.foldlM_cons, List.all_cons]
    cases hpd : processDriver d with
    | error e =>
      rw [gatherStep_error acc d e hpd, exceptBind_error]
      simp [isOkE, hpd]
    | ok s =>
      have hstep : ∃ acc1, gatherStep acc d = .ok acc1 := by
        cases he : s.entry with
        | none => exact ⟨_, gatherStep_ok_none acc d s hpd he⟩
        | some q =>
          obtain ⟨code, tr⟩ := q
          exact ⟨_, gatherStep_ok_some acc d s code tr hpd he⟩
      obtain ⟨acc1, hstep⟩ := hstep
      rw [hstep, exceptBind_ok]
      simp only [hpd, isOkE, Bool.true_and]
      exact foldlM_gatherStep_isOk l acc1

theorem core_ok_char (s : Session) (p : Payload)
    (hok : get_race_telemetry_core s = .ok p) :
    ∃ (acc : GatherAcc) (gmin gmax : ℚ) (colors : List (String × (ℕ × ℕ × ℕ))),
      gather s = .ok acc ∧ acc.gmin = some gmin ∧ acc.gmax = some gmax ∧
      acc.driver_data ≠ [] ∧ get_driver_colors s.colorMapping = .ok colors ∧
      p = ⟨buildFrames
             (acc.driver_data.map (fun q => (q.1, resampleDriver (mkTimeline gmin gmax) gmin q.2)))
             (mkTimeline gmin gmax),
           colors, buildStatuses gmin s.trackStatus, acc.max_lap⟩ := by
  cases hg : gather s with
  | error e =>
    rw [get_race_telemetry_core, hg] at hok
    cases hok
  | ok acc =>
    rw [get_race_telemetry_core, hg] at hok
    cases hgm : acc.gmin with
    | none =>
      simp only [hgm] at hok
      cases hok
    | some gmin =>
      cases hgx : acc.gmax with
      | none =>
        simp only [hgm, hgx] at hok
        cases hok
      | some gmax =>
        simp only [hgm, hgx] at hok
        by_cases hdd : acc.driver_data = []
        · rw [if_pos hdd] at hok
          cases hok
        · rw [if_neg hdd] at hok
          cases hcol : get_driver_colors s.colorMapping with
          | error e =>
            simp only [hcol] at hok
            cases hok
          | ok colors =>
            simp only [hcol] at hok
            cases hok
            exact ⟨acc, gmin, gmax, colors, rfl, hgm, hgx, hdd, rfl, rfl⟩


/-! ## Frame Synthesizer lemmas -/

theorem cars_codes (resampled : List (String × DriverTrace)) (i : ℕ) :
    (resampled.map (fun q => mkFrameCar q.1 q.2 i)).map (fun c => c.code) =
      resampled.map Prod.fst := by
  rw [List.map_map]
  exact List.map_congr_left (fun q _ => rfl)

theorem frameAt_some (resampled : List (String × DriverTrace)) (i : ℕ) (t : ℚ) (f : Frame)
    (hknd : (resampled.map Prod.fst).Nodup)
    (hfa : frameAt resampled i t = some f) :
    ∃ snapshot : List FrameCar,
      sortCarsDesc (resampled.map (fun q => mkFrameCar q.1 q.2 i)) = snapshot ∧
      snapshot ≠ [] ∧
      (snapshot.map (fun c => c.code)).Nodup ∧
      f.t = t ∧
      (∀ leader rest, snapshot = leader :: rest → f.lap = leader.lap) ∧
      f.drivers = snapshot.enum.map (fun q => (q.2.code, mkFrameEntry q.2 (q.1 + 1))) := by
  simp only [frameAt] at hfa
  cases hsort : sortCarsDesc (resampled.map (fun q => mkFrameCar q.1 q.2 i)) with
  | nil =>
    rw [hsort] at hfa
    cases hfa
  | cons leader rest =>
    rw [hsort] at hfa
    simp only [Option.some.injEq] at hfa
    have hperm : List.Perm (leader :: rest) (resampled.map (fun q => mkFrameCar q.1 q.2 i)) := by
      rw [← hsort]
      exact sortCarsDesc_perm _
    have hcodes : ((leader :: rest).map (fun c => c.code)).Nodup := by
      rw [List.Perm.nodup_iff (hperm.map (fun c => c.code))]
      rw [cars_codes]
      exact hknd
    have hkeys : (((leader :: rest).enum.map
        (fun q => (q.2.code, mkFrameEntry q.2 (q.1 + 1)))).map Prod.fst).Nodup := by
      have : ((leader :: rest).enum.map
          (fun q => (q.2.code, mkFrameEntry q.2 (q.1 + 1)))).map Prod.fst =
          ((leader :: rest).enum.map Prod.snd).map (fun c => c.code) := by
        rw [List.map_map, List.map_map]
        exact List.map_congr_left (fun q _ => rfl)
      rw [this, List.enum_map_snd]
      exact hcodes
    have hfold : dictFold [] ((leader :: rest).enum.map
        (fun q => (q.2.code, mkFrameEntry q.2 (q.1 + 1)))) =
        (leader :: rest).enum.map (fun q => (q.2.code, mkFrameEntry q.2 (q.1 + 1))) := by
      rw [dictFold_append _ [] hkeys (by simp)]
      simp
    refine ⟨leader :: rest, rfl, by simp, hcodes, ?_, ?_, ?_⟩
    · rw [← hfa]
    · intro leader' rest' heq
      cases heq
      rw [← hfa]
    · rw [← hfa]
      simpa using hfold

/-- C4: in every emitted frame the rank positions are exactly `1..k` in the
order of the frame's driver entries, and a driver with strictly greater
cumulative distance has a strictly smaller position number. -/
theorem c4_rank_positions (s : Session) (p : Payload)
    (hok : get_race_telemetry_core s = .ok p) (f : Frame) (hf : f ∈ p.frames) :
    f.drivers.map (fun e => e.2.position) = List.range' 1 f.drivers.length ∧
    ∀ (i j : ℕ) (hi : i < f.drivers.length) (hj : j < f.drivers.length),
      (f.drivers.get ⟨i, hi⟩).2.dist > (f.drivers.get ⟨j, hj⟩).2.dist →
      (f.drivers.get ⟨i, hi⟩).2.position < (f.drivers.get ⟨j, hj⟩).2.position := by
  obtain ⟨acc, gmin, gmax, colors, hg, hgm, hgx, hdd, hcol, hp⟩ := core_ok_char s p hok
  have hknd : (acc.driver_data.map Prod.fst).Nodup := by
    have hchar := gather_fold_char s.drivers _ acc hg
    rw [hchar.1]
    exact foldl_dictInsert_keys_nodup _ [] (by simp)
  have hrknd : (((acc.driver_data.map
      (fun q => (q.1, resampleDriver (mkTimeline gmin gmax) gmin q.2)))).map Prod.fst).Nodup := by
    rw [List.map_map]
    simpa using hknd
  subst hp
  simp only [buildFrames, List.mem_filterMap] at hf
  obtain ⟨⟨i, t⟩, _, hfa⟩ := hf
  obtain ⟨snapshot, hsort, hne, hcodes, hft, hlap, hdrv⟩ :=
    frameAt_some _ i t f hrknd hfa
  have hsorted : snapshot.Pairwise (fun a b => b.dist ≤ a.dist) := by
    rw [← hsort]
    exact sortCarsDesc_pairwise _
  have hlen : f.drivers.length = snapshot.length := by
    rw [hdrv]
    simp
  constructor
  · rw [hdrv]
    simp only [List.length_map, List.enum_length, List.map_map]
    have h1 : ((fun e : String × FrameEntry => e.2.position) ∘
        (fun q : ℕ × FrameCar => (q.2.code, mkFrameEntry q.2 (q.1 + 1)))) =
        (fun q : ℕ × FrameCar => q.1 + 1) := rfl
    rw [h1]
    have h2 : snapshot.enum.map (fun q : ℕ × FrameCar => q.1 + 1) =
        (snapshot.enum.map Prod.fst).map (fun n => n + 1) := by
      rw [List.map_map]
      exact List.map_congr_left (fun q _ => rfl)
    rw [h2, List.enum_map_fst, List.range'_eq_map_range]
    exact List.map_congr_left (fun n _ => Nat.add_comm n 1)
  · intro i' j' hi hj hgt
    have hi' : i' < snapshot.length := by rw [← hlen]; exact hi
    have hj' : j' < snapshot.length := by rw [← hlen]; exact hj
    have hget : ∀ (k : ℕ) (hk : k < f.drivers.length),
        f.drivers.get ⟨k, hk⟩ =
          ((snapshot.get ⟨k, by rw [← hlen]; exact hk⟩).code,
           mkFrameEntry (snapshot.get ⟨k, by rw [← hlen]; exact hk⟩) (k + 1)) := by
      intro k hk
      rw [List.get_of_eq hdrv ⟨k, hk⟩]
      simp [List.get_eq_getElem, List.getElem_map, List.getElem_enum]
    rw [hget i' hi, hget j' hj] at hgt ⊢
    simp only [mkFrameEntry] at hgt ⊢
    have hij : i' < j' := by
      rcases lt_trichotomy i' j' with h | h | h
      · exact h
      · subst h
        exact absurd hgt (lt_irrefl _)
      · have := List.Sorted.rel_get_of_lt hsorted
          (a := ⟨j', hj'⟩) (b := ⟨i', hi'⟩) h
        exact absurd hgt (not_lt.mpr this)
    omega


/-- Witness for C4: the first frame of session `SAB` carries positions
`[1, 2]`. -/
theorem c4_rank_positions_witness :
    FAB ∈ PAB.frames ∧
    FAB.drivers.map (fun e => e.2.position) = List.range' 1 FAB.drivers.length :=
  ⟨of_decide_eq_true rfl, (c4_rank_positions SAB PAB rfl FAB (of_decide_eq_true rfl)).1⟩


/-! ## Failure characterisation of the extraction loop -/

theorem all_not_eq_not_any {α : Type} (p : α → Bool) :
    ∀ l : List α, (l.all fun a => !p a) = !l.any p
  | [] => rfl
  | a :: l => by
    rw [List.all_cons, List.any_cons, Bool.not_or, all_not_eq_not_any p l]

theorem foldlM_processLap_isOk :
    ∀ (laps : List Lap) (acc : ℚ × Parts),
      isOkE (laps.foldlM processLap acc) = laps.all (fun lap => !crashLap lap)
  | [], _ => rfl
  | lap :: laps, acc => by
    rw [List.foldlM_cons, List.all_cons]
    have h := processLap_isOk acc lap
    cases hc : crashLap lap with
    | true =>
      rw [hc] at h
      cases hp : processLap acc lap with
      | ok r => rw [hp] at h; simp [isOkE] at h
      | error e =>
        rw [exceptBind_error]
        simp [isOkE]
    | false =>
      rw [hc] at h
      cases hp : processLap acc lap with
      | error e => rw [hp] at h; simp [isOkE] at h
      | ok r =>
        rw [exceptBind_ok]
        simp only [Bool.not_false, Bool.true_and]
        exact foldlM_processLap_isOk laps r

theorem processDriver_none (d : Driver) (hl : d.laps = none) :
    processDriver d = .ok ⟨none, none⟩ := by
  simp [processDriver, hl]

theorem processDriver_empty (d : Driver) (laps : List Lap)
    (hl : d.laps = some laps) (he : laps = []) :
    processDriver d = .ok ⟨none, none⟩ := by
  simp [processDriver, hl, he]

theorem processDriver_fold_error (d : Driver) (laps : List Lap) (e : String)
    (hl : d.laps = some laps) (he : laps ≠ [])
    (hf : laps.foldlM processLap (0, partsEmpty) = .error e) :
    processDriver d = .error e := by
  simp [processDriver, hl, if_neg he, hf]

theorem processDriver_fold_ok_noparts (d : Driver) (laps : List Lap) (res : ℚ × Parts)
    (hl : d.laps = some laps) (he : laps ≠ [])
    (hf : laps.foldlM processLap (0, partsEmpty) = .ok res) (ht : res.2.t = []) :
    processDriver d = .ok ⟨some (intMax (laps.map (fun l => l.lapNumber))), none⟩ := by
  simp [processDriver, hl, if_neg he, hf, ht]

theorem processDriver_fold_ok_trace (d : Driver) (laps : List Lap) (res : ℚ × Parts)
    (hl : d.laps = some laps) (he : laps ≠ [])
    (hf : laps.foldlM processLap (0, partsEmpty) = .ok res) (ht : ¬res.2.t = []) :
    processDriver d = .ok ⟨some (intMax (laps.map (fun l => l.lapNumber))),
      some (driver_code d,
        { t := applyOrder (argsort res.2.t.flatten) res.2.t.flatten
          x := applyOrder (argsort res.2.t.flatten) res.2.x.flatten
          y := applyOrder (argsort res.2.t.flatten) res.2.y.flatten
          dist := applyOrder (argsort res.2.t.flatten) res.2.dist.flatten
          rel_dist := applyOrder (argsort res.2.t.flatten) res.2.rel_dist.flatten
          lap := applyOrder (argsort res.2.t.flatten) res.2.lap.flatten
          tyre := applyOrder (argsort res.2.t.flatten) res.2.tyre.flatten
          speed := applyOrder (argsort res.2.t.flatten) res.2.speed.flatten
          gear := applyOrder (argsort res.2.t.flatten) res.2.gear.flatten
          drs := applyOrder (argsort res.2.t.flatten) res.2.drs.flatten })⟩ := by
  simp [processDriver, hl, if_neg he, hf, ht]

theorem processDriver_isOk (d : Driver) :
    isOkE (processDriver d) = !driverCrashes d := by
  cases hl : d.laps with
  | none =>
    rw [processDriver_none d hl, driverCrashes, hl]
    simp [isOkE]
  | some laps =>
    by_cases he : laps = []
    · rw [processDriver_empty d laps hl he, driverCrashes, hl, he]
      simp [isOkE]
    · have hcr : driverCrashes d = laps.any crashLap := by
        rw [driverCrashes, hl]
        simp [List.isEmpty_iff, he]
      have hfold := foldlM_processLap_isOk laps (0, partsEmpty)
      rw [all_not_eq_not_any] at hfold
      rw [hcr, ← hfold]
      cases hf : laps.foldlM processLap (0, partsEmpty) with
      | error e =>
        rw [processDriver_fold_error d laps e hl he hf]
        rfl
      | ok res =>
        by_cases ht : res.2.t = []
        · rw [processDriver_fold_ok_noparts d laps res hl he hf ht]
          rfl
        · rw [processDriver_fold_ok_trace d laps res hl he hf ht]
          rfl

theorem foldlM_processLap_error_msg :
    ∀ (laps : List Lap) (acc : ℚ × Parts) (e : String),
      laps.foldlM processLap acc = .error e → e = speedErrMsg ∨ e = ndarrayErrMsg
  | [], _, _, h => by cases h
  | lap :: laps, acc, e, h => by
    rw [List.foldlM_cons] at h
    cases hp : processLap acc lap with
    | error e' =>
      rw [hp, exceptBind_error] at h
      cases h
      exact processLap_error_msg acc lap e hp
    | ok r =>
      rw [hp, exceptBind_ok] at h
      exact foldlM_processLap_error_msg laps r e h

theorem processDriver_error_msg (d : Driver) (e : String)
    (h : processDriver d = .error e) : e = speedErrMsg ∨ e = ndarrayErrMsg := by
  cases hl : d.laps with
  | none => rw [processDriver_none d hl] at h; cases h
  | some laps =>
    by_cases he : laps = []
    · rw [processDriver_empty d laps hl he] at h; cases h
    · cases hf : laps.foldlM processLap (0, partsEmpty) with
      | error e' =>
        rw [processDriver_fold_error d laps e' hl he hf] at h
        cases h
        exact foldlM_processLap_error_msg laps (0, partsEmpty) e hf
      | ok res =>
        by_cases ht : res.2.t = []
        · rw [processDriver_fold_ok_noparts d laps res hl he hf ht] at h
          cases h
        · rw [processDriver_fold_ok_trace d laps res hl he hf ht] at h
          cases h

theorem foldlM_gatherStep_error_msg :
    ∀ (l : List Driver) (acc : GatherAcc) (e : String),
      l.foldlM gatherStep acc = .error e → e = speedErrMsg ∨ e = ndarrayErrMsg
  | [], _, _, h => by cases h
  | d :: l, acc, e, h => by
    rw [List.foldlM_cons] at h
    cases hpd : processDriver d with
    | error e' =>
      rw [gatherStep_error acc d e' hpd, exceptBind_error] at h
      cases h
      exact processDriver_error_msg d e hpd
    | ok s =>
      have hstep : ∃ acc1, gatherStep acc d = .ok acc1 := by
        cases he : s.entry with
        | none => exact ⟨_, gatherStep_ok_none acc d s hpd he⟩
        | some q =>
          obtain ⟨code, tr⟩ := q
          exact ⟨_, gatherStep_ok_some acc d s code tr hpd he⟩
      obtain ⟨acc1, hstep⟩ := hstep
      rw [hstep, exceptBind_ok] at h
      exact foldlM_gatherStep_error_msg l acc1 e h

theorem producesTrace_eq (d : Driver) : producesTrace d = (entryOf d).isSome := by
  rw [producesTrace, entryOf]
  cases processDriver d <;> simp

theorem tminOf_none_iff (d : Driver) : tminOf d = none ↔ producesTrace d = false := by
  rw [tminOf, producesTrace_eq]
  cases entryOf d <;> simp

theorem tmaxOf_none_iff (d : Driver) : tmaxOf d = none ↔ producesTrace d = false := by
  rw [tmaxOf, producesTrace_eq]
  cases entryOf d <;> simp

theorem entryOf_none_iff (d : Driver) : entryOf d = none ↔ producesTrace d = false := by
  rw [producesTrace_eq]
  cases entryOf d <;> simp

theorem foldl_optMinStep_some :
    ∀ (l : List ℚ) (x : ℚ), ∃ y, l.foldl optMinStep (some x) = some y
  | [], x => ⟨x, rfl⟩
  | t :: l, x => by
    rw [List.foldl_cons]
    simpa [optMinStep] using foldl_optMinStep_some l (min x t)

theorem foldl_optMinStep_none_iff (l : List ℚ) :
    (l.foldl optMinStep none = none) ↔ l = [] := by
  cases l with
  | nil => simp
  | cons t l =>
    rw [List.foldl_cons]
    constructor
    · intro h
      obtain ⟨y, hy⟩ := foldl_optMinStep_some l t
      have : optMinStep none t = some t := rfl
      rw [this, hy] at h
      cases h
    · intro h
      cases h

theorem foldl_optMaxStep_some :
    ∀ (l : List ℚ) (x : ℚ), ∃ y, l.foldl optMaxStep (some x) = some y
  | [], x => ⟨x, rfl⟩
  | t :: l, x => by
    rw [List.foldl_cons]
    simpa [optMaxStep] using foldl_optMaxStep_some l (max x t)

theorem foldl_optMaxStep_none_iff (l : List ℚ) :
    (l.foldl optMaxStep none = none) ↔ l = [] := by
  cases l with
  | nil => simp
  | cons t l =>
    rw [List.foldl_cons]
    constructor
    · intro h
      obtain ⟨y, hy⟩ := foldl_optMaxStep_some l t
      have : optMaxStep none t = some t := rfl
      rw [this, hy] at h
      cases h
    · intro h
      cases h


/-- C1 counterexample: in session `S1` the first driver produces a usable
trace, yet the whole computation aborts (with the uncaught speed
`AttributeError`, not `DataUnavailable`), because the second driver's lap
has both speed channels absent. -/
theorem c1_counterexample :
    get_race_telemetry_core S1 = .error speedErrMsg ∧
    speedErrMsg ≠ dataUnavailableMsg ∧
    dGood ∈ S1.drivers ∧
    producesTrace dGood = true :=
  ⟨rfl, by decide, by decide, by decide⟩

/-- C1 (amended): given a well-formed color mapping, the computation aborts
exactly when some driver has a retrievable, nonempty lap that crashes the
channel resolution of lines 140-142 (both speed channels absent, or
`nGear` absent, or `DRS` absent — the coded all-zero fallback for the last
two being unreachable), or no driver produced a usable trace; and in the
crash-free case the abort is exactly `DataUnavailable`. -/
theorem c1_abort_characterization (s : Session)
    (hcolors : isOkE (get_driver_colors s.colorMapping) = true) :
    (isOkE (get_race_telemetry_core s) = false ↔
      ((∃ d ∈ s.drivers, driverCrashes d = true) ∨
        ∀ d ∈ s.drivers, producesTrace d = false)) ∧
    ((∀ d ∈ s.drivers, driverCrashes d = false) →
      (get_race_telemetry_core s = .error dataUnavailableMsg ↔
        ∀ d ∈ s.drivers, producesTrace d = false)) := by
  have hgany : isOkE (gather s) = !s.drivers.any driverCrashes := by
    rw [gather, foldlM_gatherStep_isOk, ← all_not_eq_not_any]
    simp only [processDriver_isOk]
  cases hg : gather s with
  | error e =>
    have hcrash : ∃ d ∈ s.drivers, driverCrashes d = true := by
      rw [hg] at hgany
      simp only [isOkE] at hgany
      cases hh : s.drivers.any driverCrashes
      · rw [hh] at hgany
        simp at hgany
      · exact List.any_eq_true.mp hh
    have hcore : get_race_telemetry_core s = .error e := by
      rw [get_race_telemetry_core, hg]
    constructor
    · rw [hcore]
      refine ⟨fun _ => Or.inl hcrash, fun _ => ?_⟩
      rfl
    · intro hnc
      obtain ⟨d, hd, hcr⟩ := hcrash
      rw [hnc d hd] at hcr
      cases hcr
  | ok acc =>
    have hg' : s.drivers.foldlM gatherStep ⟨[], none, none, 0⟩ = .ok acc := hg
    have hchar := gather_fold_char s.drivers _ acc hg'
    have hnocrash : ∀ d ∈ s.drivers, driverCrashes d = false := by
      rw [hg] at hgany
      simp only [isOkE] at hgany
      intro d hd
      cases hcd : driverCrashes d
      · rfl
      · have : s.drivers.any driverCrashes = true :=
          List.any_eq_true.mpr ⟨d, hd, hcd⟩
        rw [this] at hgany
        simp at hgany
    have hgmin_iff : acc.gmin = none ↔ ∀ d ∈ s.drivers, producesTrace d = false := by
      rw [hchar.2.1, foldl_optMinStep_none_iff, List.filterMap_eq_nil]
      exact ⟨fun h d hd => (tminOf_none_iff d).mp (h d hd),
             fun h d hd => (tminOf_none_iff d).mpr (h d hd)⟩
    have hgmax_iff : acc.gmax = none ↔ ∀ d ∈ s.drivers, producesTrace d = false := by
      rw [hchar.2.2.1, foldl_optMaxStep_none_iff, List.filterMap_eq_nil]
      exact ⟨fun h d hd => (tmaxOf_none_iff d).mp (h d hd),
             fun h d hd => (tmaxOf_none_iff d).mpr (h d hd)⟩
    have hdd_iff : acc.driver_data = [] ↔ ∀ d ∈ s.drivers, producesTrace d = false := by
      rw [hchar.1, foldl_dictInsert_nil_iff, List.filterMap_eq_nil]
      constructor
      · rintro ⟨_, h⟩ d hd
        exact (entryOf_none_iff d).mp (h d hd)
      · intro h
        exact ⟨rfl, fun d hd => (entryOf_none_iff d).mpr (h d hd)⟩
    by_cases hnp : ∀ d ∈ s.drivers, producesTrace d = false
    · have h1 : acc.gmin = none := hgmin_iff.mpr hnp
      have hcore : get_race_telemetry_core s = .error dataUnavailableMsg := by
        rw [get_race_telemetry_core, hg]
        simp only [h1]
      refine ⟨?_, fun _ => ⟨fun _ => hnp, fun _ => hcore⟩⟩
      rw [hcore]
      refine ⟨fun _ => Or.inr hnp, fun _ => ?_⟩
      rfl
    · have h1 : acc.gmin ≠ none := fun hc => hnp (hgmin_iff.mp hc)
      have h2 : acc.gmax ≠ none := fun hc => hnp (hgmax_iff.mp hc)
      have h3 : acc.driver_data ≠ [] := fun hc => hnp (hdd_iff.mp hc)
      obtain ⟨gmin, hgm⟩ := Option.ne_none_iff_exists'.mp h1
      obtain ⟨gmax, hgx⟩ := Option.ne_none_iff_exists'.mp h2
      have hcok : ∃ colors, get_driver_colors s.colorMapping = .ok colors := by
        cases hc : get_driver_colors s.colorMapping with
        | error e =>
          rw [hc] at hcolors
          simp [isOkE] at hcolors
        | ok colors => exact ⟨colors, rfl⟩
      obtain ⟨colors, hcok⟩ := hcok
      have hcore_ok : get_race_telemetry_core s =
          .ok ⟨buildFrames
                 (acc.driver_data.map
                   (fun q => (q.1, resampleDriver (mkTimeline gmin gmax) gmin q.2)))
                 (mkTimeline gmin gmax),
               colors, buildStatuses gmin s.trackStatus, acc.max_lap⟩ := by
        rw [get_race_telemetry_core, hg]
        simp only [hgm, hgx, if_neg h3, hcok]
      constructor
      · rw [hcore_ok]
        simp only [isOkE]
        constructor
        · intro hfalse
          cases hfalse
        · rintro (⟨d, hd, hcr⟩ | hnp')
          · rw [hnocrash d hd] at hcr
            cases hcr
          · exact absurd hnp' hnp
      · intro _
        constructor
        · intro herr
          rw [hcore_ok] at herr
          cases herr
        · intro hnp'
          exact absurd hnp' hnp

/-- Witness for C1: a session with no drivers has no usable trace and fails
with `DataUnavailable`. -/
theorem c1_abort_characterization_witness :
    get_race_telemetry_core S0 = .error dataUnavailableMsg :=
  ((c1_abort_characterization S0 (by decide)).2
      (fun d hd => absurd hd (List.not_mem_nil d))).mpr
    (fun d hd => absurd hd (List.not_mem_nil d))


/-- The key of a driver's `driver_data` contribution is its code. -/
theorem entryOf_key (d : Driver) (q : String × DriverTrace) (h : entryOf d = some q) :
    q.1 = driver_code d := by
  rw [entryOf] at h
  cases hl : d.laps with
  | none =>
    simp only [processDriver_none d hl] at h
    cases h
  | some laps =>
    by_cases he : laps = []
    · simp only [processDriver_empty d laps hl he] at h
      cases h
    · cases hf : laps.foldlM processLap (0, partsEmpty) with
      | error e =>
        simp only [processDriver_fold_error d laps e hl he hf] at h
        cases h
      | ok res =>
        by_cases ht : res.2.t = []
        · simp only [processDriver_fold_ok_noparts d laps res hl he hf ht] at h
          cases h
        · simp only [processDriver_fold_ok_trace d laps res hl he hf ht,
            Option.some.injEq] at h
          rw [← h]

/-- C7: with pairwise-distinct driver codes, a driver contributing zero
usable laps has no `driver_data` entry and appears in no frame, while the
payload's total lap count is still the maximum observed lap number over all
drivers (the excluded driver included). -/
theorem c7_excluded_driver (s : Session) (acc : GatherAcc) (p : Payload)
    (hacc : gather s = .ok acc) (hok : get_race_telemetry_core s = .ok p)
    (hnd : (s.drivers.map driver_code).Nodup)
    (d : Driver) (hd : d ∈ s.drivers) (hfail : producesTrace d = false) :
    driver_code d ∉ acc.driver_data.map Prod.fst ∧
    (∀ f ∈ p.frames, driver_code d ∉ f.drivers.map Prod.fst) ∧
    p.total_laps = (s.drivers.filterMap lapMaxOf).foldl max 0 := by
  have hchar := gather_fold_char s.drivers _ acc hacc
  have hkey : driver_code d ∉ acc.driver_data.map Prod.fst := by
    rw [hchar.1]
    intro hmem
    rw [mem_keys_foldl_dictInsert] at hmem
    rcases hmem with h | h
    · simp at h
    · rw [List.mem_map] at h
      obtain ⟨q, hq, hqk⟩ := h
      rw [List.mem_filterMap] at hq
      obtain ⟨d', hd', hq'⟩ := hq
      have heq : driver_code d' = driver_code d := by
        rw [← entryOf_key d' q hq', hqk]
      have hdd' : d' = d := List.inj_on_of_nodup_map hnd hd' hd heq
      subst hdd'
      rw [(entryOf_none_iff d').mpr hfail] at hq'
      cases hq'
  obtain ⟨acc2, gmin, gmax, colors, hg2, hgm, hgx, hdd2, hcol, hp⟩ := core_ok_char s p hok
  have hacc2 : acc2 = acc := by
    rw [hacc] at hg2
    cases hg2
    rfl
  subst hacc2
  have hknd : (acc2.driver_data.map Prod.fst).Nodup := by
    rw [hchar.1]
    exact foldl_dictInsert_keys_nodup _ [] (by simp)
  refine ⟨hkey, ?_, ?_⟩
  · intro f hf
    rw [hp] at hf
    simp only [buildFrames, List.mem_filterMap] at hf
    obtain ⟨⟨i, t⟩, _, hfa⟩ := hf
    have hrknd : ((acc2.driver_data.map
        (fun q => (q.1, resampleDriver (mkTimeline gmin gmax) gmin q.2))).map Prod.fst).Nodup := by
      rw [List.map_map]
      simpa using hknd
    obtain ⟨snapshot, hsort, hne, hcodes, hft, hlapf, hdrv⟩ := frameAt_some _ i t f hrknd hfa
    rw [hdrv]
    intro hmem
    have hmem2 : driver_code d ∈ snapshot.map (fun c => c.code) := by
      have hkeq : (snapshot.enum.map
          (fun q => (q.2.code, mkFrameEntry q.2 (q.1 + 1)))).map Prod.fst =
          (snapshot.enum.map Prod.snd).map (fun c => c.code) := by
        rw [List.map_map, List.map_map]
        exact List.map_congr_left (fun q _ => rfl)
      rw [hkeq, List.enum_map_snd] at hmem
      exact hmem
    have hperm : List.Perm snapshot
        ((acc2.driver_data.map (fun q => (q.1, resampleDriver (mkTimeline gmin gmax) gmin q.2))).map
          (fun q => mkFrameCar q.1 q.2 i)) := by
      rw [← hsort]
      exact sortCarsDesc_perm _
    have hmem3 : driver_code d ∈ acc2.driver_data.map Prod.fst := by
      have := (hperm.map (fun c => c.code)).mem_iff.mp hmem2
      rw [cars_codes] at this
      rw [List.map_map] at this
      simpa using this
    exact hkey hmem3
  · rw [hp]
    have := hchar.2.2.2
    simpa using this


/-- Witness for C7: in `S7`, driver number 7 (code `BBB`, one lap numbered 5
whose telemetry retrieval failed) has no trace entry, yet the payload's
total lap count is 5. -/
theorem c7_excluded_driver_witness :
    driver_code dExcluded ∉ A7.driver_data.map Prod.fst ∧ P7.total_laps = 5 := by
  have H := c7_excluded_driver S7 A7 P7 rfl rfl (by decide) dExcluded
    (of_decide_eq_true rfl) (by decide)
  refine ⟨H.1, ?_⟩
  rw [H.2.2]
  decide


/-! ## Resampler lemmas: np.interp clamping and interior interpolation -/

theorem interpSeg_single (p : ℚ × ℚ) (x : ℚ) : interpSeg [p] x = p.2 := by
  obtain ⟨x0, f0⟩ := p
  rfl

theorem interpSeg_cons2 (p0 p1 : ℚ × ℚ) (rest : List (ℚ × ℚ)) (x : ℚ) :
    interpSeg (p0 :: p1 :: rest) x =
      if x ≤ p0.1 then p0.2
      else if x ≤ p1.1 then p0.2 + (p1.2 - p0.2) * (x - p0.1) / (p1.1 - p0.1)
      else interpSeg (p1 :: rest) x := by
  obtain ⟨x0, f0⟩ := p0
  obtain ⟨x1, f1⟩ := p1
  rfl

theorem getLastD_cons_of_ne {α : Type} (a d : α) (l : List α) (h : l ≠ []) :
    (a :: l).getLastD d = l.getLastD d := by
  cases l with
  | nil => exact absurd rfl h
  | cons b m => rw [List.getLastD_cons, List.getLastD_cons, List.getLastD_cons]

theorem interpSeg_le_head :
    ∀ (pts : List (ℚ × ℚ)) (x : ℚ), pts ≠ [] →
      x ≤ (pts.headD (0, 0)).1 → interpSeg pts x = (pts.headD (0, 0)).2
  | [], _, h, _ => absurd rfl h
  | [p], x, _, _ => by rw [interpSeg_single]; rfl
  | p0 :: p1 :: rest, x, _, hx => by
    rw [interpSeg_cons2, if_pos (by simpa using hx)]
    rfl

theorem chain_head_le_getLast :
    ∀ (p : ℚ × ℚ) (l : List (ℚ × ℚ)),
      List.Chain' (fun a b => a.1 < b.1) (p :: l) → p.1 ≤ ((p :: l).getLastD (0, 0)).1
  | _, [], _ => le_refl _
  | p, q :: l, hc => by
    have hc' := List.chain'_cons.mp hc
    have h2 := chain_head_le_getLast q l hc'.2
    rw [getLastD_cons_of_ne _ _ _ (by simp)]
    exact le_trans (le_of_lt hc'.1) h2

theorem interpSeg_getLast_le :
    ∀ (pts : List (ℚ × ℚ)) (x : ℚ),
      List.Chain' (fun a b => a.1 < b.1) pts →
      (pts.getLastD (0, 0)).1 ≤ x → interpSeg pts x = (pts.getLastD (0, 0)).2
  | [], _, _, _ => rfl
  | [p], x, _, _ => by rw [interpSeg_single]; rfl
  | p0 :: p1 :: rest, x, hc, hx => by
    have hc' := List.chain'_cons.mp hc
    rw [getLastD_cons_of_ne _ _ _ (by simp : (p1 :: rest) ≠ [])] at hx ⊢
    have hge : p1.1 ≤ ((p1 :: rest).getLastD (0, 0)).1 := chain_head_le_getLast p1 rest hc'.2
    rw [interpSeg_cons2,
      if_neg (not_le.mpr (lt_of_lt_of_le hc'.1 (le_trans hge hx)))]
    cases rest with
    | nil =>
      have hx1 : ((p1 :: ([] : List (ℚ × ℚ))).getLastD (0, 0)) = p1 := by
        rw [List.getLastD_cons]
        rfl
      rw [hx1] at hx ⊢
      by_cases h2 : x ≤ p1.1
      · rw [if_pos h2]
        have hxe : x = p1.1 := le_antisymm h2 hx
        have hne : p1.1 - p0.1 ≠ 0 := sub_ne_zero.mpr (ne_of_gt hc'.1)
        rw [hxe]
        field_simp
      · rw [if_neg h2, interpSeg_single]
    | cons p2 rest2 =>
      have hc2 := List.chain'_cons.mp hc'.2
      have hlt : p1.1 < ((p1 :: p2 :: rest2).getLastD (0, 0)).1 := by
        rw [getLastD_cons_of_ne _ _ _ (by simp : (p2 :: rest2) ≠ [])]
        exact lt_of_lt_of_le hc2.1 (chain_head_le_getLast p2 rest2 hc2.2)
      rw [if_neg (not_le.mpr (lt_of_lt_of_le hlt hx))]
      exact interpSeg_getLast_le (p1 :: p2 :: rest2) x hc'.2 hx

theorem chain_fst_lt_getD :
    ∀ (l : List (ℚ × ℚ)) (p : ℚ × ℚ) (j : ℕ),
      List.Chain' (fun a b => a.1 < b.1) (p :: l) → j < l.length →
      p.1 < (l.getD j (0, 0)).1
  | [], _, j, _, hj => by simp at hj
  | q :: l, p, 0, hc, _ => by
    simpa using (List.chain'_cons.mp hc).1
  | q :: l, p, j + 1, hc, hj => by
    have hc' := List.chain'_cons.mp hc
    have hrec := chain_fst_lt_getD l q j hc'.2 (by simpa using hj)
    simp only [List.getD_cons_succ]
    exact lt_trans hc'.1 hrec

theorem interpSeg_between :
    ∀ (pts : List (ℚ × ℚ)) (x : ℚ) (k : ℕ),
      List.Chain' (fun a b => a.1 < b.1) pts → k + 1 < pts.length →
      (pts.getD k (0, 0)).1 ≤ x → x ≤ (pts.getD (k + 1) (0, 0)).1 →
      interpSeg pts x = (pts.getD k (0, 0)).2 +
        ((pts.getD (k + 1) (0, 0)).2 - (pts.getD k (0, 0)).2) *
          (x - (pts.getD k (0, 0)).1) / ((pts.getD (k + 1) (0, 0)).1 - (pts.getD k (0, 0)).1)
  | [], _, k, _, hk, _, _ => by simp at hk
  | [p], _, k, _, hk, _, _ => by simp at hk
  | p0 :: p1 :: rest, x, 0, hc, _, h1, h2 => by
    have hc' := List.chain'_cons.mp hc
    simp only [List.getD_cons_succ, List.getD_cons_zero] at h1 h2 ⊢
    rw [interpSeg_cons2]
    by_cases h0 : x ≤ p0.1
    · rw [if_pos h0]
      have hxe : x = p0.1 := le_antisymm h0 h1
      rw [hxe]
      simp
    · rw [if_neg h0, if_pos h2]
  | p0 :: p1 :: rest, x, k + 1, hc, hk, h1, h2 => by
    have hc' := List.chain'_cons.mp hc
    simp only [List.getD_cons_succ] at h1 h2 ⊢
    have hk1 : k < (p1 :: rest).length := by
      simp only [List.length_cons] at hk ⊢
      omega
    have hk2 : k + 1 < (p1 :: rest).length := by
      simp only [List.length_cons] at hk ⊢
      omega
    have hp0 : p0.1 < ((p1 :: rest).getD k (0, 0)).1 :=
      chain_fst_lt_getD (p1 :: rest) p0 k hc hk1
    rw [interpSeg_cons2, if_neg (not_le.mpr (lt_of_lt_of_le hp0 h1))]
    cases k with
    | zero =>
      simp only [List.getD_cons_zero] at h1 ⊢
      by_cases hx1 : x ≤ p1.1
      · rw [if_pos hx1]
        have hxe : x = p1.1 := le_antisymm hx1 h1
        have hne : p1.1 - p0.1 ≠ 0 := sub_ne_zero.mpr (ne_of_gt hc'.1)
        rw [hxe]
        field_simp
      · rw [if_neg hx1]
        exact interpSeg_between (p1 :: rest) x 0 hc'.2 hk2 h1 h2
    | succ j =>
      have hj : j < rest.length := by simpa using hk1
      have hp1 : p1.1 < (rest.getD j (0, 0)).1 := chain_fst_lt_getD rest p1 j hc'.2 hj
      have hlt : p1.1 < ((p1 :: rest).getD (j + 1) (0, 0)).1 := by
        simpa [List.getD_cons_succ] using hp1
      rw [if_neg (not_le.mpr (lt_of_lt_of_le hlt h1))]
      exact interpSeg_between (p1 :: rest) x (j + 1) hc'.2 hk2 h1 h2


/-! ## zip transfer lemmas for np.interp -/

theorem zip_ne_nil (xp fp : List ℚ) (hx : xp ≠ []) (hf : fp ≠ []) : xp.zip fp ≠ [] := by
  cases xp with
  | nil => exact absurd rfl hx
  | cons a xs =>
    cases fp with
    | nil => exact absurd rfl hf
    | cons b fs => simp [List.zip_cons_cons]

theorem zip_headD (xp fp : List ℚ) (hx : xp ≠ []) (hf : fp ≠ []) :
    (xp.zip fp).headD (0, 0) = (xp.headD 0, fp.headD 0) := by
  cases xp with
  | nil => exact absurd rfl hx
  | cons a xs =>
    cases fp with
    | nil => exact absurd rfl hf
    | cons b fs => rfl

theorem zip_getLastD :
    ∀ (xp fp : List ℚ), xp ≠ [] → xp.length = fp.length →
      (xp.zip fp).getLastD (0, 0) = (xp.getLastD 0, fp.getLastD 0)
  | [], _, hx, _ => absurd rfl hx
  | [x], [f], _, _ => rfl
  | [x], f1 :: f2 :: fs, _, h => by simp at h
  | x1 :: x2 :: xs, [f], _, h => by simp at h
  | x1 :: x2 :: xs, f1 :: f2 :: fs, _, h => by
    have hlen : (x2 :: xs).length = (f2 :: fs).length := by simpa using h
    have ih := zip_getLastD (x2 :: xs) (f2 :: fs) (by simp) hlen
    rw [List.zip_cons_cons,
      getLastD_cons_of_ne _ _ _ (by rw [List.zip_cons_cons]; simp),
      ih,
      getLastD_cons_of_ne _ _ _ (by simp : (x2 :: xs) ≠ []),
      getLastD_cons_of_ne _ _ _ (by simp : (f2 :: fs) ≠ [])]

theorem zip_getD :
    ∀ (xp fp : List ℚ) (k : ℕ), k < xp.length → k < fp.length →
      (xp.zip fp).getD k (0, 0) = (xp.getD k 0, fp.getD k 0)
  | [], _, k, h, _ => by simp at h
  | _ :: _, [], k, _, h => by simp at h
  | x :: xs, f :: fs, 0, _, _ => rfl
  | x :: xs, f :: fs, k + 1, hx, hf => by
    rw [List.zip_cons_cons]
    simp only [List.getD_cons_succ]
    exact zip_getD xs fs k (by simpa using hx) (by simpa using hf)

theorem zip_chain_fst (xp fp : List ℚ) (h : xp.length = fp.length)
    (hc : xp.Chain' (· < ·)) : (xp.zip fp).Chain' (fun a b => a.1 < b.1) := by
  have hmap : (xp.zip fp).map Prod.fst = xp := List.map_fst_zip xp fp (le_of_eq h)
  rw [← hmap] at hc
  exact (List.chain'_map Prod.fst).mp hc

theorem np_interp_le_head (xp fp : List ℚ) (x : ℚ) (hx : xp ≠ [])
    (hlen : xp.length = fp.length) (h : x ≤ xp.headD 0) :
    np_interp x xp fp = fp.headD 0 := by
  have hf : fp ≠ [] := by
    intro hc
    rw [hc] at hlen
    simp only [List.length_nil] at hlen
    exact hx (List.length_eq_zero.mp hlen)
  rw [np_interp,
    interpSeg_le_head _ _ (zip_ne_nil xp fp hx hf)
      (by rw [zip_headD xp fp hx hf]; exact h),
    zip_headD xp fp hx hf]

theorem np_interp_getLast_le (xp fp : List ℚ) (x : ℚ) (hx : xp ≠ [])
    (hlen : xp.length = fp.length) (hc : xp.Chain' (· < ·))
    (h : xp.getLastD 0 ≤ x) : np_interp x xp fp = fp.getLastD 0 := by
  rw [np_interp,
    interpSeg_getLast_le _ _ (zip_chain_fst xp fp hlen hc)
      (by rw [zip_getLastD xp fp hx hlen]; exact h),
    zip_getLastD xp fp hx hlen]

theorem np_interp_between (xp fp : List ℚ) (x : ℚ) (k : ℕ)
    (hlen : xp.length = fp.length) (hc : xp.Chain' (· < ·))
    (hk : k + 1 < xp.length)
    (h1 : xp.getD k 0 ≤ x) (h2 : x ≤ xp.getD (k + 1) 0) :
    np_interp x xp fp = fp.getD k 0 + (fp.getD (k + 1) 0 - fp.getD k 0) *
      (x - xp.getD k 0) / (xp.getD (k + 1) 0 - xp.getD k 0) := by
  have hzlen : (xp.zip fp).length = xp.length := by
    rw [List.length_zip, hlen, min_self]
  have hk' : k + 1 < (xp.zip fp).length := by rwa [hzlen]
  have e1 := zip_getD xp fp k (by omega) (by rw [← hlen]; omega)
  have e2 := zip_getD xp fp (k + 1) (by omega) (by rw [← hlen]; omega)
  have := interpSeg_between (xp.zip fp) x k (zip_chain_fst xp fp hlen hc) hk'
    (by rw [e1]; exact h1) (by rw [e2]; exact h2)
  rw [np_interp, this, e1, e2]

/-! ## argsort of an already-sorted array -/

theorem insertIdxBy_cons (val : ℕ → ℚ) (i j : ℕ) (js : List ℕ) :
    insertIdxBy val i (j :: js) =
      if val i ≤ val j then i :: j :: js else j :: insertIdxBy val i js := rfl

theorem insertIdxBy_foldr_of_chain (val : ℕ → ℚ) :
    ∀ is : List ℕ, is.Chain' (fun i j => val i < val j) →
      is.foldr (insertIdxBy val) [] = is
  | [], _ => rfl
  | [i], _ => rfl
  | i :: j :: is, hc => by
    have hc' := List.chain'_cons.mp hc
    rw [List.foldr_cons, insertIdxBy_foldr_of_chain val (j :: is) hc'.2,
      insertIdxBy_cons, if_pos (le_of_lt hc'.1)]

theorem getD_eq_get {α : Type} (l : List α) (d : α) (i : ℕ) (h : i < l.length) :
    l.getD i d = l.get ⟨i, h⟩ := by
  rw [List.getD_eq_getElem?_getD, List.getElem?_eq_getElem h]
  rfl

theorem chain_getD_range (l : List ℚ) (hc : l.Chain' (· < ·)) :
    (List.range l.length).Chain' (fun i j => l.getD i 0 < l.getD j 0) := by
  rw [List.chain'_iff_get]
  intro i hi
  have hlen : (List.range l.length).length = l.length := List.length_range _
  rw [hlen] at hi
  have hi' : i + 1 < l.length := by omega
  rw [List.get_range, List.get_range]
  rw [List.chain'_iff_get] at hc
  have hstep := hc i (by omega)
  rw [getD_eq_get l 0 i (by omega), getD_eq_get l 0 (i + 1) hi']
  exact hstep

theorem argsort_of_chain (l : List ℚ) (hc : l.Chain' (· < ·)) :
    argsort l = List.range l.length := by
  rw [argsort]
  exact insertIdxBy_foldr_of_chain _ _ (chain_getD_range l hc)

theorem applyOrder_range (l : List ℚ) (n : ℕ) (h : l.length = n) :
    applyOrder (List.range n) l = l := by
  subst h
  apply List.ext_get
  · simp [applyOrder]
  · intro i h1 h2
    simp only [applyOrder] at h1 ⊢
    rw [List.get_map, List.get_range]
    exact getD_eq_get l 0 i h2


/-! ## C8: resampling clamps outside the driver's time range, interpolates inside -/

/-- C8: for a driver whose shifted time base is strictly increasing (as the
re-sort guarantees for distinct times) and whose channels are well-formed,
the resampled trace is exactly `np.interp` of each channel onto the
timeline over the shifted time base; and for every channel array and every
timeline instant, the interpolated value clamps to the first sample value
at or before the start of the driver's observed range, clamps to the last
sample value at or after its end, and is the linear interpolation formula
between consecutive samples inside the range. -/
theorem c8_resample_clamp_interp (tl : List ℚ) (gmin : ℚ) (data : DriverTrace)
    (ts : List ℚ) (hts : ts = data.t.map (fun v => v - gmin))
    (hmono : ts.Chain' (· < ·))
    (hwf : channelsWF data) (hne : data.t ≠ []) :
    ((resampleDriver tl gmin data).t = tl ∧
     (resampleDriver tl gmin data).x = safe_interp tl ts data.x ∧
     (resampleDriver tl gmin data).y = safe_interp tl ts data.y ∧
     (resampleDriver tl gmin data).dist = safe_interp tl ts data.dist ∧
     (resampleDriver tl gmin data).rel_dist = safe_interp tl ts data.rel_dist ∧
     (resampleDriver tl gmin data).lap = safe_interp tl ts data.lap ∧
     (resampleDriver tl gmin data).tyre = safe_interp tl ts data.tyre ∧
     (resampleDriver tl gmin data).speed = safe_interp tl ts data.speed ∧
     (resampleDriver tl gmin data).gear = safe_interp tl ts data.gear ∧
     (resampleDriver tl gmin data).drs = safe_interp tl ts data.drs) ∧
    (∀ arr : List ℚ, arr.length = data.t.length → ∀ τ, τ ∈ tl →
      (τ ≤ ts.headD 0 → np_interp τ ts arr = arr.headD 0) ∧
      (ts.getLastD 0 ≤ τ → np_interp τ ts arr = arr.getLastD 0) ∧
      (∀ k, k + 1 < ts.length → ts.getD k 0 ≤ τ → τ ≤ ts.getD (k + 1) 0 →
        np_interp τ ts arr = arr.getD k 0 +
          (arr.getD (k + 1) 0 - arr.getD k 0) * (τ - ts.getD k 0) /
            (ts.getD (k + 1) 0 - ts.getD k 0))) := by
  subst hts
  have htlen : (data.t.map (fun v => v - gmin)).length = data.t.length :=
    List.length_map _ _
  obtain ⟨hx, hy, hd, hr, hl, hty, hs, hg, hdr⟩ := hwf
  have hne' : data.t.map (fun v => v - gmin) ≠ [] := by
    intro hcon
    exact hne (List.map_eq_nil.mp hcon)
  have horder : argsort (data.t.map (fun v => v - gmin)) =
      List.range data.t.length := by
    rw [argsort_of_chain _ hmono, htlen]
  have key : ∀ arr : List ℚ, arr.length = data.t.length →
      applyOrder (argsort (data.t.map (fun v => v - gmin))) arr = arr := by
    intro arr harr
    rw [horder]
    exact applyOrder_range _ _ harr
  constructor
  · refine ⟨rfl, ?_, ?_, ?_, ?_, ?_, ?_, ?_, ?_, ?_⟩ <;>
      simp only [resampleDriver]
    · rw [key _ htlen, key _ hx]
    · rw [key _ htlen, key _ hy]
    · rw [key _ htlen, key _ hd]
    · rw [key _ htlen, key _ hr]
    · rw [key _ htlen, key _ hl]
    · rw [key _ htlen, key _ hty]
    · rw [key _ htlen, key _ hs]
    · rw [key _ htlen, key _ hg]
    · rw [key _ htlen, key _ hdr]
  · intro arr harr τ _
    have hlen' : (data.t.map (fun v => v - gmin)).length = arr.length :=
      htlen.trans harr.symm
    refine ⟨?_, ?_, ?_⟩
    · intro h
      exact np_interp_le_head _ _ _ hne' hlen' h
    · intro h
      exact np_interp_getLast_le _ _ _ hne' hlen' hmono h
    · intro k hk h1 h2
      exact np_interp_between _ _ _ k hlen' hmono hk h1 h2

/-- C8 witness: the two-sample trace `d8` over times `[0, 1]` with channel
values `[0, 4]`, resampled onto `tl8 = [-1, 1/2, 5]`, clamps to `0` before
the range, interpolates to `2` at the midpoint, and clamps to `4` after the
range. -/
theorem c8_resample_clamp_interp_witness :
    (resampleDriver tl8 0 d8).dist = [0, 2, 4] ∧
    np_interp (-1) (d8.t.map (fun v => v - 0)) d8.dist = 0 ∧
    np_interp 5 (d8.t.map (fun v => v - 0)) d8.dist = 4 ∧
    np_interp (1/2) (d8.t.map (fun v => v - 0)) d8.dist = 2 := by
  have hmono : (d8.t.map (fun v => v - 0)).Chain' (· < ·) := by
    rw [show d8.t.map (fun v => v - 0) = [0, 1] by decide]
    exact List.chain'_pair.mpr (by decide)
  have h := c8_resample_clamp_interp tl8 0 d8 (d8.t.map (fun v => v - 0)) rfl
    hmono ⟨rfl, rfl, rfl, rfl, rfl, rfl, rfl, rfl, rfl⟩ (by decide)
  refine ⟨?_, ?_, ?_, ?_⟩
  · rw [h.1.2.2.2.1]
    decide
  · exact ((h.2 d8.dist rfl (-1) (by decide)).1 (by decide)).trans (by decide)
  · exact ((h.2 d8.dist rfl 5 (by decide)).2.1 (by decide)).trans (by decide)
  · exact ((h.2 d8.dist rfl (1/2) (by decide)).2.2 0 (by decide) (by decide)
      (by decide)).trans (by decide)

/-! ## C6: order invariance of driver processing -/

theorem perm_all {α : Type} {l₁ l₂ : List α} (h : List.Perm l₁ l₂) (p : α → Bool) :
    l₁.all p = l₂.all p := by
  have hiff : l₁.all p = true ↔ l₂.all p = true := by
    simp only [List.all_eq_true]
    exact ⟨fun H x hx => H x (h.mem_iff.mpr hx), fun H x hx => H x (h.mem_iff.mp hx)⟩
  cases h1 : l₁.all p <;> cases h2 : l₂.all p
  · rfl
  · exact absurd (h1 ▸ hiff.mpr h2) Bool.false_ne_true
  · exact absurd (h2 ▸ hiff.mp h1) Bool.false_ne_true
  · rfl

theorem foldl_dictInsert_eq_self {α : Type} (kvs : List (String × α))
    (hnd : (kvs.map Prod.fst).Nodup) :
    kvs.foldl (fun m q => dictInsert m q.1 q.2) [] = kvs := by
  have h := dictFold_append kvs [] hnd (by simp)
  simpa [dictFold] using h

theorem enum_mem_lt {α : Type} (l : List α) (p : ℕ × α) (hp : p ∈ l.enum) :
    p.1 < l.length := by
  obtain ⟨i, a⟩ := p
  rw [List.enum_eq_zip_range] at hp
  exact List.mem_range.mp (List.of_mem_zip hp).1

theorem frameAt_perm_eq (rs rs' : List (String × DriverTrace)) (i : ℕ) (t : ℚ)
    (hp : List.Perm rs' rs)
    (hnd : (rs.map (fun p => p.2.dist.getD i 0)).Nodup) :
    frameAt rs' i t = frameAt rs i t := by
  have hcars : List.Perm (rs'.map (fun q => mkFrameCar q.1 q.2 i))
      (rs.map (fun q => mkFrameCar q.1 q.2 i)) := hp.map _
  have hnd' : ((rs.map (fun q => mkFrameCar q.1 q.2 i)).map (fun c => c.dist)).Nodup := by
    rw [List.map_map]
    exact hnd
  have hinj : ∀ x ∈ rs.map (fun q => mkFrameCar q.1 q.2 i),
      ∀ y ∈ rs.map (fun q => mkFrameCar q.1 q.2 i), x.dist = y.dist → x = y := by
    intro x hx y hy hxy
    exact List.inj_on_of_nodup_map hnd' hx hy hxy
  have hsort : sortCarsDesc (rs'.map (fun q => mkFrameCar q.1 q.2 i)) =
      sortCarsDesc (rs.map (fun q => mkFrameCar q.1 q.2 i)) := by
    apply List.Perm.eq_of_sorted
    · intro a b ha hb hab hba
      have ha' : a ∈ rs.map (fun q => mkFrameCar q.1 q.2 i) :=
        hcars.subset ((sortCarsDesc_perm _).subset ha)
      have hb' : b ∈ rs.map (fun q => mkFrameCar q.1 q.2 i) :=
        (sortCarsDesc_perm _).subset hb
      exact hinj a ha' b hb' (le_antisymm hba hab)
    · exact sortCarsDesc_pairwise _
    · exact sortCarsDesc_pairwise _
    · exact ((sortCarsDesc_perm _).trans hcars).trans (sortCarsDesc_perm _).symm
  simp only [frameAt, hsort]

theorem core_of_gather_ok (s : Session) (acc : GatherAcc) (h : gather s = .ok acc) :
    get_race_telemetry_core s =
      match acc.gmin, acc.gmax with
      | some gmin, some gmax =>
        if acc.driver_data = [] then .error dataUnavailableMsg
        else
          match get_driver_colors s.colorMapping with
          | .error e => .error e
          | .ok colors =>
            .ok ⟨buildFrames
                   (acc.driver_data.map
                     (fun p => (p.1, resampleDriver (mkTimeline gmin gmax) gmin p.2)))
                   (mkTimeline gmin gmax),
                 colors, buildStatuses gmin s.trackStatus, acc.max_lap⟩
      | _, _ => .error dataUnavailableMsg := by
  rw [get_race_telemetry_core, h]

/-- C6 counterexample: sessions `S6a` and `S6b` hold the same two drivers in
opposite order, with identical traces and hence a tie in cumulative distance
at the only timeline tick; the computed results differ (the stable
descending sort ranks whichever tied driver was processed first as the
leader), so the output is not invariant under permutation of the driver
processing sequence. -/
theorem c6_counterexample :
    List.Perm S6b.drivers S6a.drivers ∧
    S6b.colorMapping = S6a.colorMapping ∧
    S6b.trackStatus = S6a.trackStatus ∧
    get_race_telemetry_core S6b ≠ get_race_telemetry_core S6a := by
  refine ⟨by decide, rfl, rfl, fun h => absurd (congrArg Except.toOption h) ?_⟩
  decide

/-- C6 (amended): processing the drivers of a session in any order yields an
identical result provided no lap triggers the uncaught channel
`AttributeError`s of lines 140-142, the trace-producing drivers carry
pairwise-distinct codes, and no two drivers tie on resampled cumulative
distance at any timeline tick; at an exact tie the stable sort makes rank
positions depend on the processing sequence (see the counterexample), and
in crashing runs the surfaced error can likewise depend on the order when
different drivers carry different crash kinds. -/
theorem c6_order_invariance (s s' : Session)
    (hperm : List.Perm s'.drivers s.drivers)
    (hcol : s'.colorMapping = s.colorMapping)
    (hst : s'.trackStatus = s.trackStatus)
    (hcrash : ∀ d ∈ s.drivers, driverCrashes d = false)
    (hnodup : ((s.drivers.filterMap entryOf).map Prod.fst).Nodup)
    (hdist : distinctDists s = true) :
    get_race_telemetry_core s' = get_race_telemetry_core s := by
  have hpe : List.Perm (s'.drivers.filterMap entryOf) (s.drivers.filterMap entryOf) :=
    hperm.filterMap _
  have hptm : List.Perm (s'.drivers.filterMap tminOf) (s.drivers.filterMap tminOf) :=
    hperm.filterMap _
  have hptx : List.Perm (s'.drivers.filterMap tmaxOf) (s.drivers.filterMap tmaxOf) :=
    hperm.filterMap _
  have hplm : List.Perm (s'.drivers.filterMap lapMaxOf) (s.drivers.filterMap lapMaxOf) :=
    hperm.filterMap _
  have hnodup' : ((s'.drivers.filterMap entryOf).map Prod.fst).Nodup :=
    ((hpe.map Prod.fst).symm).nodup hnodup
  have hallok : s.drivers.all (fun d => isOkE (processDriver d)) = true := by
    rw [List.all_eq_true]
    intro d hd
    rw [processDriver_isOk, hcrash d hd]
    rfl
  have h1 : isOkE (gather s) = s.drivers.all (fun d => isOkE (processDriver d)) :=
    foldlM_gatherStep_isOk s.drivers ⟨[], none, none, 0⟩
  cases hg : gather s with
  | error e =>
    rw [hg, hallok] at h1
    simp [isOkE] at h1
  | ok acc =>
    have hall' : s'.drivers.all (fun d => isOkE (processDriver d)) = true := by
      rw [perm_all hperm]
      exact hallok
    have h2 : isOkE (gather s') = s'.drivers.all (fun d => isOkE (processDriver d)) :=
      foldlM_gatherStep_isOk s'.drivers ⟨[], none, none, 0⟩
    cases hg' : gather s' with
    | error e' =>
      rw [hg', hall'] at h2
      simp [isOkE] at h2
    | ok acc' =>
      obtain ⟨hdd, hgm, hgx, hml⟩ := gather_fold_char s.drivers ⟨[], none, none, 0⟩ acc hg
      obtain ⟨hdd', hgm', hgx', hml'⟩ := gather_fold_char s'.drivers ⟨[], none, none, 0⟩ acc' hg'
      have hgmin : acc'.gmin = acc.gmin := by
        rw [hgm, hgm']
        exact hptm.foldl_eq'
          (fun x _ y _ z => by
            cases z <;> simp [optMinStep, min_comm, min_assoc, min_left_comm]) _
      have hgmax : acc'.gmax = acc.gmax := by
        rw [hgx, hgx']
        exact hptx.foldl_eq'
          (fun x _ y _ z => by
            cases z <;> simp [optMaxStep, max_comm, max_assoc, max_left_comm]) _
      have hmaxlap : acc'.max_lap = acc.max_lap := by
        rw [hml, hml']
        exact hplm.foldl_eq'
          (fun x _ y _ z => by rw [max_assoc, max_comm x y, ← max_assoc]) _
      have hddl : acc.driver_data = s.drivers.filterMap entryOf := by
        rw [hdd]
        exact foldl_dictInsert_eq_self _ hnodup
      have hddl' : acc'.driver_data = s'.drivers.filterMap entryOf := by
        rw [hdd']
        exact foldl_dictInsert_eq_self _ hnodup'
      have hddperm : List.Perm acc'.driver_data acc.driver_data := by
        rw [hddl, hddl']
        exact hpe
      rw [core_of_gather_ok s acc hg, core_of_gather_ok s' acc' hg',
        hgmin, hgmax, hmaxlap, hcol, hst]
      cases hgmv : acc.gmin with
      | none => simp only [hgmv]
      | some gmin =>
        cases hgxv : acc.gmax with
        | none => simp only [hgmv, hgxv]
        | some gmax =>
          simp only [hgmv, hgxv]
          by_cases hdd0 : acc.driver_data = []
          · have hdd0' : acc'.driver_data = [] := by
              rw [hdd0] at hddperm
              exact hddperm.eq_nil
            rw [if_pos hdd0, if_pos hdd0']
          · have hddne' : acc'.driver_data ≠ [] := by
              intro hc
              rw [hc] at hddperm
              exact hdd0 hddperm.symm.eq_nil
            rw [if_neg hdd0, if_neg hddne']
            have hre : resampledOf s =
                some (acc.driver_data.map
                  (fun p => (p.1, resampleDriver (mkTimeline gmin gmax) gmin p.2))) := by
              rw [resampledOf, hg]
              simp only [hgmv, hgxv]
            have htlv : timelineOf s = some (mkTimeline gmin gmax) := by
              rw [timelineOf, hg]
              simp only [hgmv, hgxv]
            have hdists : ∀ i, i < (mkTimeline gmin gmax).length →
                ((acc.driver_data.map
                    (fun p => (p.1, resampleDriver (mkTimeline gmin gmax) gmin p.2))).map
                  (fun p => p.2.dist.getD i 0)).Nodup := by
              intro i hi
              rw [distinctDists, hre, htlv] at hdist
              have h2 := List.all_eq_true.mp hdist i (List.mem_range.mpr hi)
              exact of_decide_eq_true h2
            have hframes : buildFrames
                (acc'.driver_data.map
                  (fun p => (p.1, resampleDriver (mkTimeline gmin gmax) gmin p.2)))
                (mkTimeline gmin gmax) =
                buildFrames
                  (acc.driver_data.map
                    (fun p => (p.1, resampleDriver (mkTimeline gmin gmax) gmin p.2)))
                  (mkTimeline gmin gmax) := by
              rw [buildFrames, buildFrames]
              apply List.filterMap_congr
              intro p hp
              exact frameAt_perm_eq _ _ p.1 p.2 (hddperm.map _)
                (hdists p.1 (enum_mem_lt _ p hp))
            rw [hframes]

/-- C6 witness: the two-driver session `SAB` (pairwise-distinct cumulative
distances at every tick, distinct codes) yields the same result when its
drivers are processed in the opposite order (`SBA`). -/
theorem c6_order_invariance_witness :
    get_race_telemetry_core SBA = get_race_telemetry_core SAB :=
  c6_order_invariance SAB SBA (by decide) rfl rfl (by decide) (by decide) (by decide)

end F1
